import Mathlib

/-!
Verification development for the tatc core: spherical point sampling
(Fibonacci lattice and fixed-step grid, `tatc/generation/points.py`) and
geodetic polygon normalization (`tatc/utils.py`).

Floating-point arithmetic of the source is idealized as real arithmetic.
Geometric capabilities consumed from the external geometry engine
(polygon validity, line splitting, crossing tests, point-in-polygon
clipping) are modelled as explicit parameters, matching the capability
boundary described by the project documentation.
-/

open Real

namespace Tatc

/-- Conversion from radians to degrees, modelling `np.degrees`. -/
noncomputable def degrees (x : ℝ) : ℝ := x * (180 / π)

/-- Modelled from the spec: the repository's `constants` module is not part
of the provided sources; the spec describes a mean Earth radius used for
the sphere model.  The WGS84 mean radius (meters) is used. -/
noncomputable def EARTH_MEAN_RADIUS : ℝ := 6371008.7714

/-- Modelled from the spec: "N = (total sphere surface area) / (cap area)"
on a mean-radius sphere; the total surface area of that sphere. -/
noncomputable def EARTH_SURFACE_AREA : ℝ := 4 * π * EARTH_MEAN_RADIUS ^ 2

/-- Real-valued `np.mod x y` for positive `y`: `x - y * ⌊x / y⌋`. -/
noncomputable def npMod (x y : ℝ) : ℝ := x - y * ⌊x / y⌋

/-- `np.round` to an integer (IEEE round-half-to-even), on the real model:
values with fractional part below one half round down, above one half round
up, and exact halves round to the even neighbor. -/
noncomputable def npRound (x : ℝ) : ℤ :=
  if Int.fract x < 1 / 2 then ⌊x⌋
  else if 1 / 2 < Int.fract x then ⌈x⌉
  else if Even ⌊x⌋ then ⌊x⌋ else ⌊x⌋ + 1

/-- Python `int()` truncation of a real toward zero. -/
noncomputable def intTrunc (x : ℝ) : ℤ := if 0 ≤ x then ⌊x⌋ else ⌈x⌉

/-- `compute_number_samples` (tatc/utils.py): number of global samples for a
typical sample distance, via the spherical-cap area model. -/
noncomputable def compute_number_samples (distance : ℝ) : ℤ :=
  let theta := distance / EARTH_MEAN_RADIUS
  let radius := EARTH_MEAN_RADIUS * Real.cos (theta / 2)
  let height := EARTH_MEAN_RADIUS - radius
  let sample_area := 2 * π * EARTH_MEAN_RADIUS * height
  intTrunc (EARTH_SURFACE_AREA / sample_area)

/-- `_compute_latitude` (generate_fibonacci_lattice_points): latitude of the
`i`-th Fibonacci lattice point among `n` global samples. -/
noncomputable def fibLatitude (i n : ℕ) : ℝ :=
  degrees (Real.arcsin (2 * (i + 1) / (n + 2) - 1))

/-- `_compute_longitude` (generate_fibonacci_lattice_points): longitude of
the `i`-th Fibonacci lattice point; the second argument is unused by the
source as well. -/
noncomputable def fibLongitude (i n : ℕ) : ℝ :=
  let phi := (1 + Real.sqrt 5) / 2
  let longitude := npMod (360 * i / phi) 360
  if longitude > 180 then longitude - 360 else longitude

/-- Python exceptions observable from the modelled code. -/
inductive PyErr where
  | valueError (msg : String)
  | unboundLocalError
  | typeError
deriving DecidableEq

/-- A sampler mask (shapely `Polygon`/`MultiPolygon`) through the capability
surface the samplers consume: its `bounds` tuple `(minx, miny, maxx, maxy)`,
its `is_valid` flag, and boundary-inclusive point containment as used by
`gpd.clip`. -/
structure MaskData where
  minLon : ℝ
  minLat : ℝ
  maxLon : ℝ
  maxLat : ℝ
  containsPt : ℝ → ℝ → Bool
  isValidB : Bool

/-- The effective upper longitude bound of a mask:
`180 if total_bounds[2] == -180 else total_bounds[2]`. -/
noncomputable def fibMaxLon (m : MaskData) : ℝ :=
  if m.maxLon = (-180 : ℝ) then 180 else m.maxLon

/-- The longitude stored for candidate `i`: shifted east by `360` when the
mask reaches beyond longitude `180` and the closed-form longitude is
negative, else the closed-form longitude itself. -/
noncomputable def fibAdjLon (m : MaskData) (i n : ℕ) : ℝ :=
  if fibMaxLon m > 180 ∧ fibLongitude i n < 0 then fibLongitude i n + 360
  else fibLongitude i n

/-- `generate_fibonacci_lattice_points` (tatc/generation/points.py).
Records are `(point_id, longitude, latitude)`; a raised exception is an
`Except.error`. -/
noncomputable def generate_fibonacci_lattice_points (distance : ℝ)
    (mask : Option MaskData) : Except PyErr (List (ℕ × ℝ × ℝ)) :=
  let samples := (compute_number_samples distance).toNat
  match mask with
  | some m =>
    if m.isValidB = false then
      .error (.valueError "Mask is not a valid Polygon or MultiPolygon.")
    else
      let min_longitude := m.minLon
      let min_latitude := m.minLat
      let max_longitude := fibMaxLon m
      let max_latitude := m.maxLat
      let indices := (List.range samples).filter fun i =>
        decide ((min_latitude ≤ fibLatitude i samples ∧
                  fibLatitude i samples ≤ max_latitude) ∧
          (min_longitude ≤ fibAdjLon m i samples ∧
            fibAdjLon m i samples ≤ max_longitude))
      let gdf := indices.map fun i =>
        (i, fibAdjLon m i samples, fibLatitude i samples)
      .ok (gdf.filter fun r => m.containsPt r.2.1 r.2.2)
  | none =>
    .ok ((List.range samples).map fun i =>
      (i, fibLongitude i samples, fibLatitude i samples))

/-- `_compute_id` (tatc/generation/points.py): flattened id of grid point
`(i, j)`; `np.mod` on integers with a positive divisor is `Int.emod`. -/
noncomputable def _compute_id (i j : ℤ) (theta_i theta_j : ℝ) : ℤ :=
  j * intTrunc (360 / theta_j) + i % intTrunc (360 / theta_i)

/-- Python `range(a, b)` over integers. -/
def intRange (a b : ℤ) : List ℤ :=
  (List.range (b - a).toNat).map (fun k : ℕ => a + (k : ℤ))

/-- Longitude of grid column `i` for angular step `theta`. -/
noncomputable def gridLon (theta : ℝ) (i : ℤ) : ℝ := -180 + (i + 0.5) * theta

/-- Latitude of grid row `j` for angular step `theta`. -/
noncomputable def gridLat (theta : ℝ) (j : ℤ) : ℝ := -90 + (j + 0.5) * theta

/-- Body of `_generate_cubed_sphere_points` after bounds are fixed: the
row-major index enumeration (`j` outer from south to north, `i` inner from
west to east), the records, and the optional exact clip.  In the source
`int(np.round(x))` is `np.round` followed by an exact integer conversion,
so it is modelled as `npRound` directly. -/
noncomputable def gridRecords (theta_longitude theta_latitude : ℝ)
    (min_longitude min_latitude max_longitude max_latitude : ℝ)
    (clip : Option (ℝ → ℝ → Bool)) : List (ℤ × ℝ × ℝ) :=
  let indices := (intRange (npRound ((min_latitude + 90) / theta_latitude))
      (npRound ((max_latitude + 90) / theta_latitude))).flatMap
    (fun j => (intRange (npRound ((min_longitude + 180) / theta_longitude))
        (npRound ((max_longitude + 180) / theta_longitude))).map
      (fun i => (i, j)))
  let gdf := indices.map fun p =>
    (_compute_id p.1 p.2 theta_longitude theta_latitude,
      gridLon theta_longitude p.1, gridLat theta_latitude p.2)
  match clip with
  | some c => gdf.filter fun r => c r.2.1 r.2.2
  | none => gdf

/-- `_generate_cubed_sphere_points` (tatc/generation/points.py). -/
noncomputable def _generate_cubed_sphere_points
    (theta_longitude theta_latitude : ℝ) (mask : Option MaskData) :
    Except PyErr (List (ℤ × ℝ × ℝ)) :=
  match mask with
  | some m =>
    if m.isValidB = false then
      .error (.valueError "Mask is not a valid Polygon or MultiPolygon.")
    else
      .ok (gridRecords theta_longitude theta_latitude m.minLon m.minLat
        (if m.maxLon = (-180 : ℝ) then 180 else m.maxLon) m.maxLat
        (some m.containsPt))
  | none =>
    .ok (gridRecords theta_longitude theta_latitude (-180) (-90) 180 90 none)

/-- `generate_cubed_sphere_points` (tatc/generation/points.py). -/
noncomputable def generate_cubed_sphere_points (distance : ℝ)
    (mask : Option MaskData) : Except PyErr (List (ℤ × ℝ × ℝ)) :=
  let theta_longitude := degrees (distance / EARTH_MEAN_RADIUS)
  let theta_latitude := degrees (distance / EARTH_MEAN_RADIUS)
  _generate_cubed_sphere_points theta_longitude theta_latitude mask

/-- A shapely `Polygon`: an exterior ring and interior rings of
`(longitude, latitude)` coordinates, exact rationals modelling the floats. -/
structure Polygon where
  exterior : List (ℚ × ℚ)
  interiors : List (List (ℚ × ℚ))
deriving DecidableEq

/-- The geometries flowing through the split/normalize operations: a
`Polygon`, a `MultiPolygon`, or some non-polygonal geometry (a point or a
line, as produced by degenerate cuts or supplied by a caller). -/
inductive Geom where
  | polygon (p : Polygon)
  | multipolygon (ps : List Polygon)
  | nonpolygonal
deriving DecidableEq

/-- The computational-geometry capabilities the split/normalize code
consumes from the external engine: geometry validity, splitting by a
`LineString`, and the `crosses` predicate. -/
structure GeoEngine where
  isValid : Geom → Bool
  splitLine : Geom → List (ℚ × ℚ) → List Geom
  crossesLine : Geom → List (ℚ × ℚ) → Bool

/-- Longitude shift chosen by both pole wraps: `+180` when every
exterior-ring vertex has longitude at most `0`, else `-180`. -/
def poleLonShift (p : Polygon) : ℚ :=
  if p.exterior.all (fun c => c.1 ≤ 0) then 180 else -180

/-- Coordinate map of the north-pole wrap: vertices with latitude at least
`90` get the longitude shift and latitude `180 - lat`; others unchanged. -/
def wrapNorthCoord (latShift : ℚ) (c : ℚ × ℚ) : ℚ × ℚ :=
  (if c.2 ≥ 90 then c.1 + latShift else c.1,
   if c.2 ≥ 90 then 180 - c.2 else c.2)

/-- `_wrap_polygon_over_north_pole` (tatc/utils.py), single-`Polygon` case;
this case never raises. -/
def wrapNorthPoly (E : GeoEngine) (p : Polygon) : Polygon :=
  if p.exterior.all (fun c => c.2 ≤ 90) then p
  else
    let latShift := poleLonShift p
    let pgon : Polygon := ⟨p.exterior.map (wrapNorthCoord latShift),
      p.interiors.map (List.map (wrapNorthCoord latShift))⟩
    if E.isValid (.polygon pgon) then pgon else p

/-- `_wrap_polygon_over_north_pole` (tatc/utils.py).  A `MultiPolygon`
recurses one level into its `Polygon` parts and flattens; other geometry
types raise `ValueError`. -/
def _wrap_polygon_over_north_pole (E : GeoEngine) : Geom → Except PyErr Geom
  | .polygon p => .ok (.polygon (wrapNorthPoly E p))
  | .multipolygon ps => .ok (.multipolygon (ps.map (wrapNorthPoly E)))
  | .nonpolygonal => .error (.valueError "Unknown geometry")

/-- Coordinate map of the south-pole wrap: vertices with latitude at most
`-90` get the longitude shift and latitude `-180 - lat`. -/
def wrapSouthCoord (latShift : ℚ) (c : ℚ × ℚ) : ℚ × ℚ :=
  (if c.2 ≤ -90 then c.1 + latShift else c.1,
   if c.2 ≤ -90 then -180 - c.2 else c.2)

/-- `_wrap_polygon_over_south_pole` (tatc/utils.py), single-`Polygon` case.
The source builds every interior-ring coordinate as `[(x,), y]` — the first
component wrapped in an extra tuple, unlike the symmetric north-pole code —
so the geometry constructor rejects the coordinate sequence and the call
raises whenever wrapping is needed and an interior ring is present; that
exception is modelled as `typeError`. -/
def wrapSouthPoly (E : GeoEngine) (p : Polygon) : Except PyErr Polygon :=
  if p.exterior.all (fun c => c.2 ≥ -90) then .ok p
  else
    let latShift := poleLonShift p
    if p.interiors ≠ [] then .error .typeError
    else
      let pgon : Polygon := ⟨p.exterior.map (wrapSouthCoord latShift),
        p.interiors.map (List.map (wrapSouthCoord latShift))⟩
      if E.isValid (.polygon pgon) then .ok pgon else .ok p

/-- `_wrap_polygon_over_south_pole` (tatc/utils.py). -/
def _wrap_polygon_over_south_pole (E : GeoEngine) : Geom → Except PyErr Geom
  | .polygon p => (wrapSouthPoly E p).map .polygon
  | .multipolygon ps => (ps.mapM (wrapSouthPoly E)).map .multipolygon
  | .nonpolygonal => .error (.valueError "Unknown geometry")

/-- `_wrap_polygon_over_antimeridian` (tatc/utils.py), single-`Polygon`
case.  When the exterior ring has longitudes outside `[-180, 180]` on both
sides, neither shift branch assigns the repaired polygon and the final
validity test reads an unassigned local (`UnboundLocalError`); the two
shift branches of the source are mutually exclusive on a non-empty
exterior ring, so the sequential `if` statements are an `if`/`else if`
chain here. -/
def wrapAntiPoly (E : GeoEngine) (p : Polygon) : Except PyErr Polygon :=
  if p.exterior.all (fun c => -180 ≤ c.1 ∧ c.1 ≤ 180) then .ok p
  else if p.exterior.all (fun c => c.1 ≤ -180) then
    let pgon : Polygon := ⟨p.exterior.map (fun c => (c.1 + 360, c.2)),
      p.interiors.map (List.map (fun c => (c.1 + 360, c.2)))⟩
    if E.isValid (.polygon pgon) then .ok pgon else .ok p
  else if p.exterior.all (fun c => c.1 ≥ 180) then
    let pgon : Polygon := ⟨p.exterior.map (fun c => (c.1 - 360, c.2)),
      p.interiors.map (List.map (fun c => (c.1 - 360, c.2)))⟩
    if E.isValid (.polygon pgon) then .ok pgon else .ok p
  else .error .unboundLocalError

/-- `_wrap_polygon_over_antimeridian` (tatc/utils.py). -/
def _wrap_polygon_over_antimeridian (E : GeoEngine) : Geom → Except PyErr Geom
  | .polygon p => (wrapAntiPoly E p).map .polygon
  | .multipolygon ps => (ps.mapM (wrapAntiPoly E)).map .multipolygon
  | .nonpolygonal => .error (.valueError "Unknown geometry")

/-- `_convert_collection_to_polygon` (tatc/utils.py): keep the `Polygon`
members, then the parts of `MultiPolygon` members, dropping points and
lines; a single polygon is returned bare, otherwise a `MultiPolygon`. -/
def _convert_collection_to_polygon (collection : List Geom) : Geom :=
  let pgons :=
    (collection.filterMap fun g => match g with
      | .polygon p => some p
      | _ => none) ++
    (collection.flatMap fun g => match g with
      | .multipolygon ps => ps
      | _ => [])
  match pgons with
  | [q] => .polygon q
  | qs => .multipolygon qs

/-- Parts of a split result, for flattening nested `MultiPolygon` results
(`p.geoms if isinstance(p, MultiPolygon) else [p]`). -/
def geomParts : Geom → List Polygon
  | .polygon p => [p]
  | .multipolygon ps => ps
  | .nonpolygonal => []

/-- The prime-meridian re-cut loop of the pole splits: iterate over the
parts produced by the first cut and, for each part crossing the given
half-meridian, rebuild the collection without that part plus the pieces of
its further split. -/
def recutParts (E : GeoEngine) (line : List (ℚ × ℚ)) (parts : List Geom) :
    List Geom :=
  parts.foldl (fun acc part =>
    if E.crossesLine part line then
      (acc.filter fun g => decide (g ≠ part)) ++ E.splitLine part line
    else acc) parts

/-- `_split_polygon_north_pole` (tatc/utils.py), single-`Polygon` case:
cut at latitude `90` over `[-360, 360]`, re-cut any part crossing the
meridian half-line from the pole, collapse to polygons, and wrap over the
pole. -/
def splitNorthPoly (E : GeoEngine) (p : Polygon) : Except PyErr Geom :=
  if p.exterior.all (fun c => c.2 ≤ 90) then .ok (.polygon p)
  else
    let parts := E.splitLine (.polygon p) [(-360, 90), (360, 90)]
    let parts := recutParts E [(0, 90), (0, 180)] parts
    _wrap_polygon_over_north_pole E (_convert_collection_to_polygon parts)

/-- `_split_polygon_north_pole` (tatc/utils.py). -/
def _split_polygon_north_pole (E : GeoEngine) : Geom → Except PyErr Geom
  | .polygon p => splitNorthPoly E p
  | .multipolygon ps =>
    (ps.mapM (splitNorthPoly E)).map fun gs =>
      .multipolygon (gs.flatMap geomParts)
  | .nonpolygonal => .error (.valueError "Unknown geometry")

/-- `_split_polygon_south_pole` (tatc/utils.py), single-`Polygon` case. -/
def splitSouthPoly (E : GeoEngine) (p : Polygon) : Except PyErr Geom :=
  if p.exterior.all (fun c => c.2 ≥ -90) then .ok (.polygon p)
  else
    let parts := E.splitLine (.polygon p) [(-360, -90), (360, -90)]
    let parts := recutParts E [(0, -90), (0, -180)] parts
    _wrap_polygon_over_south_pole E (_convert_collection_to_polygon parts)

/-- `_split_polygon_south_pole` (tatc/utils.py). -/
def _split_polygon_south_pole (E : GeoEngine) : Geom → Except PyErr Geom
  | .polygon p => splitSouthPoly E p
  | .multipolygon ps =>
    (ps.mapM (splitSouthPoly E)).map fun gs =>
      .multipolygon (gs.flatMap geomParts)
  | .nonpolygonal => .error (.valueError "Unknown geometry")

/-- `np.around` to an integer on the rationals (round half to even). -/
def qRound (x : ℚ) : ℤ :=
  if Int.fract x < 1 / 2 then ⌊x⌋
  else if 1 / 2 < Int.fract x then ⌈x⌉
  else if Even ⌊x⌋ then ⌊x⌋ else ⌊x⌋ + 1

/-- `np.interp` on a table of `(position, value)` pairs sorted by position:
clamped to the first value below the table and to the last value above it,
linear interpolation between bracketing entries.  `np.interp` requires a
non-empty table; the unreachable empty case returns `0`. -/
def npInterpQ (x : ℚ) : List (ℚ × ℚ) → ℚ
  | [] => 0
  | (x0, y0) :: rest =>
    if x ≤ x0 then y0
    else
      match rest with
      | [] => y0
      | (x1, y1) :: rest' =>
        if x ≤ x1 then
          if x1 = x0 then y1
          else y0 + (y1 - y0) * (x - x0) / (x1 - x0)
        else npInterpQ x ((x1, y1) :: rest')

/-- Per-vertex cumulative shift of the antimeridian split:
`np.insert(np.cumsum(np.around(np.diff(lon) / 360)), 0, 0)`. -/
def antiShift (lon : List ℚ) : List ℤ :=
  ((List.zipWith (fun a b => b - a) lon lon.tail).map
    (fun d => qRound (d / 360))).scanl (· + ·) 0

/-- The exterior shift profile sorted by longitude, interpolated for
interior rings: `np.sort(lon)` paired with `shift[np.argsort(lon)]`
(`np.argsort` modelled as a stable sort). -/
def antiProfile (lon : List ℚ) (shift : List ℤ) : List (ℚ × ℚ) :=
  (lon.zip (shift.map (fun z => (z : ℚ)))).mergeSort
    (fun a b => decide (a.1 ≤ b.1))

/-- The unwrapped polygon built by the antimeridian split: each exterior
vertex shifted by its cumulative count, interior vertices by the
interpolated profile. -/
def antiUnwrapped (p : Polygon) : Polygon :=
  ⟨(p.exterior.zip (antiShift (p.exterior.map Prod.fst))).map
      (fun cs => (cs.1.1 - 360 * (cs.2 : ℚ), cs.1.2)),
    p.interiors.map (fun ring =>
      ring.map (fun ic => (ic.1 - 360 * npInterpQ ic.1
        (antiProfile (p.exterior.map Prod.fst)
          (antiShift (p.exterior.map Prod.fst))), ic.2)))⟩

/-- Cut longitude of the antimeridian split: `-180` when the largest shift
is at least `1`, else `180`. -/
def antiDir (shift : List ℤ) : ℚ := if 1 ≤ shift.foldl max 0 then -180 else 180

/-- `_split_polygon_antimeridian` (tatc/utils.py), single-`Polygon` case:
detect a crossing as an adjacent-longitude jump of at least `180`, unwrap
the ring by the cumulative rounded jump counts, cut at `±180` (by the sign
of the largest shift), collapse to polygons, and re-wrap longitudes into
range. -/
def splitAntiPoly (E : GeoEngine) (p : Polygon) : Except PyErr Geom :=
  let lon := p.exterior.map Prod.fst
  let diffs := List.zipWith (fun a b => b - a) lon lon.tail
  if diffs.all (fun d => |d| < 180) then .ok (.polygon p)
  else
    let pgon := antiUnwrapped p
    let shift_dir := antiDir (antiShift lon)
    let parts := E.splitLine (.polygon pgon) [(shift_dir, -180), (shift_dir, 180)]
    _wrap_polygon_over_antimeridian E (_convert_collection_to_polygon parts)

/-- `_split_polygon_antimeridian` (tatc/utils.py). -/
def _split_polygon_antimeridian (E : GeoEngine) : Geom → Except PyErr Geom
  | .polygon p => splitAntiPoly E p
  | .multipolygon ps =>
    (ps.mapM (splitAntiPoly E)).map fun gs =>
      .multipolygon (gs.flatMap geomParts)
  | .nonpolygonal => .error (.valueError "Unknown geometry")

/-- `split_polygon` (tatc/utils.py): antimeridian split, then south-pole
split, then north-pole split. -/
def split_polygon (E : GeoEngine) (g : Geom) : Except PyErr Geom := do
  _split_polygon_north_pole E
    (← _split_polygon_south_pole E (← _split_polygon_antimeridian E g))

/-- Input of `normalize_geometry`: a bare geometry, or a
GeoDataFrame/GeoSeries of geometry rows. -/
inductive NormInput where
  | geom (g : Geom)
  | gdf (rows : List Geom)
deriving DecidableEq

/-- Output of `normalize_geometry`: a GeoDataFrame of rows, or — for a bare
geometry that matched none of the handled types — the input passed back
unchanged. -/
inductive NormOutput where
  | gdfOut (rows : List Geom)
  | raw (g : Geom)
deriving DecidableEq

/-- `normalize_geometry` (tatc/utils.py): a bare `Polygon`/`MultiPolygon`
is validity-checked (raising `ValueError` when invalid) and wrapped into a
one-row frame; a frame applies `split_polygon` row-wise; any other bare
geometry falls through every `isinstance` test and is returned unchanged. -/
def normalize_geometry (E : GeoEngine) : NormInput → Except PyErr NormOutput
  | .geom (.polygon p) =>
    if E.isValid (.polygon p) = false then
      .error (.valueError "Geometry is not a valid Polygon or MultiPolygon.")
    else (split_polygon E (.polygon p)).map fun r => .gdfOut [r]
  | .geom (.multipolygon ps) =>
    if E.isValid (.multipolygon ps) = false then
      .error (.valueError "Geometry is not a valid Polygon or MultiPolygon.")
    else (split_polygon E (.multipolygon ps)).map fun r => .gdfOut [r]
  | .geom .nonpolygonal => .ok (.raw .nonpolygonal)
  | .gdf rows => (rows.mapM (split_polygon E)).map .gdfOut

/-- The repaired polygon the north-pole wrap constructs before the validity
check. -/
def northCandidate (p : Polygon) : Polygon :=
  ⟨p.exterior.map (wrapNorthCoord (poleLonShift p)),
    p.interiors.map (List.map (wrapNorthCoord (poleLonShift p)))⟩

/-- The repaired polygon the south-pole wrap constructs before the validity
check (reachable only when the polygon has no interior rings). -/
def southCandidate (p : Polygon) : Polygon :=
  ⟨p.exterior.map (wrapSouthCoord (poleLonShift p)),
    p.interiors.map (List.map (wrapSouthCoord (poleLonShift p)))⟩

/-- A permissive engine: everything valid, cuts return nothing, nothing
crosses.  Used to exercise code paths that do not consult the engine. -/
def trueEngine : GeoEngine :=
  ⟨fun _ => true, fun _ _ => [], fun _ _ => false⟩

/-- A polygon reaching below the south pole that carries one interior
ring. -/
def southHolePoly : Polygon :=
  ⟨[(10, -95), (20, -95), (20, -85), (10, -85), (10, -95)],
    [[(12, -94), (18, -94), (15, -90), (12, -94)]]⟩

/-- A polygon whose exterior ring runs beyond `-180` and beyond `180` at
the same time. -/
def mixedLonPoly : Polygon :=
  ⟨[(-200, 0), (200, 0), (0, 10), (-200, 0)], []⟩

/-- The list a successful sampler call returned (empty on an exception). -/
def resultList {α : Type} (r : Except PyErr (List α)) : List α :=
  match r with
  | .ok l => l
  | .error _ => []

/-- A rectangular mask with longitudes `100..260`, i.e. reaching past the
antimeridian, as produced by a caller working in `0..360` longitudes; a
topologically valid shapely polygon. -/
noncomputable def mask260 : MaskData :=
  ⟨100, -90, 260, 90,
    fun x y => decide (100 ≤ x ∧ x ≤ 260 ∧ -90 ≤ y ∧ y ≤ 90), true⟩

/-- The whole-globe rectangular mask. -/
noncomputable def maskGlobal : MaskData :=
  ⟨-180, -90, 180, 90, fun _ _ => true, true⟩

/-- A structurally invalid mask (shapely `is_valid` false). -/
noncomputable def maskInvalid : MaskData :=
  ⟨0, 0, 1, 1, fun _ _ => true, false⟩

/-- An engine that declares every geometry invalid. -/
def falseEngine : GeoEngine :=
  ⟨fun _ => false, fun _ _ => [], fun _ _ => false⟩

/-- A rectangle crossing the antimeridian, written with wrapped
coordinates: the ring jumps from longitude `170` to `-170` (i.e. `190`). -/
def rect170 (a b : ℚ) : Polygon :=
  ⟨[(170, a), (-170, a), (-170, b), (170, b), (170, a)], []⟩

/-- The same rectangle unwrapped into the extended longitude range
`170..190`, as produced by the cumulative-shift step. -/
def rect170Unwrapped (a b : ℚ) : Polygon :=
  ⟨[(170, a), (190, a), (190, b), (170, b), (170, a)], []⟩

/-- Longitude shift of a whole polygon by `-360`, as applied by the
antimeridian re-wrap to a part lying at or beyond `180`. -/
def shiftWest (p : Polygon) : Polygon :=
  ⟨p.exterior.map (fun c => (c.1 - 360, c.2)),
    p.interiors.map (List.map (fun c => (c.1 - 360, c.2)))⟩

/-- Eastern half `170..180` of the unwrapped test rectangle. -/
def rectPartWest : Polygon :=
  ⟨[(170, -10), (180, -10), (180, 10), (170, 10), (170, -10)], []⟩

/-- Western-hemisphere half `180..190` of the unwrapped test rectangle. -/
def rectPartEast : Polygon :=
  ⟨[(180, -10), (190, -10), (190, 10), (180, 10), (180, -10)], []⟩

/-- An engine whose line split returns the two halves of the unwrapped test
rectangle, as a conformant geometry engine does for the cut at `180`. -/
def engineRect : GeoEngine :=
  ⟨fun _ => true,
    fun _ _ => [.polygon rectPartWest, .polygon rectPartEast],
    fun _ _ => false⟩

/-- An axis-aligned square away from every boundary. -/
def squarePoly : Polygon :=
  ⟨[(10, 10), (20, 10), (20, 20), (10, 20), (10, 10)],
    [[(12, 12), (18, 12), (15, 18), (12, 12)]]⟩

/-- A polygon reaching beyond the north pole, with one vertex exactly at
latitude `90` and all longitudes at most `0`. -/
def northOverPoly : Polygon :=
  ⟨[(-10, 80), (-1, 80), (-2, 95), (-5, 90), (-10, 80)], []⟩

/-- A polygon reaching beyond the south pole, no interior rings, with one
positive longitude. -/
def southOverPoly : Polygon :=
  ⟨[(-10, -80), (5, -80), (-2, -95), (-5, -90), (-10, -80)], []⟩

/-- No mask, or a mask whose bounds stay inside the standard geodetic
coordinate ranges. -/
def maskBoundsInRange : Option MaskData → Prop
  | none => True
  | some m => -180 ≤ m.minLon ∧ m.maxLon ≤ 180 ∧ -90 ≤ m.minLat ∧ m.maxLat ≤ 90

/-- The branch of `wrapNorthPoly` where wrapping triggers and the repaired
polygon passes the validity check. -/
theorem wrapNorthPoly_wrapped (E : GeoEngine) (p : Polygon)
    (hb : (p.exterior.all fun c => decide (c.2 ≤ 90)) = false)
    (hval : E.isValid (.polygon (northCandidate p)) = true) :
    wrapNorthPoly E p = northCandidate p := by
  unfold wrapNorthPoly
  rw [if_neg (by simp [hb])]
  show (if E.isValid (.polygon (northCandidate p)) = true then northCandidate p
    else p) = northCandidate p
  rw [if_pos hval]

/-- The branch of `wrapSouthPoly` where wrapping triggers on a polygon
without interior rings and the repaired polygon passes the validity
check. -/
theorem wrapSouthPoly_wrapped (E : GeoEngine) (p : Polygon)
    (hb : (p.exterior.all fun c => decide (c.2 ≥ -90)) = false)
    (hempty : p.interiors = [])
    (hval : E.isValid (.polygon (southCandidate p)) = true) :
    wrapSouthPoly E p = .ok (southCandidate p) := by
  unfold wrapSouthPoly
  rw [if_neg (by simp [hb])]
  rw [if_neg (by simp [hempty])]
  show (if E.isValid (.polygon (southCandidate p)) = true then
    Except.ok (southCandidate p) else Except.ok p) = Except.ok (southCandidate p)
  rw [if_pos hval]

/-- `split_polygon` composed from the outcomes of its three stages. -/
theorem split_polygon_eq (E : GeoEngine) (g g1 g2 g3 : Geom)
    (h1 : _split_polygon_antimeridian E g = .ok g1)
    (h2 : _split_polygon_south_pole E g1 = .ok g2)
    (h3 : _split_polygon_north_pole E g2 = .ok g3) :
    split_polygon E g = .ok g3 := by
  unfold split_polygon
  rw [h1]
  show (_split_polygon_south_pole E g1 >>=
    fun y => _split_polygon_north_pole E y) = Except.ok g3
  rw [h2]
  show _split_polygon_north_pole E g2 = Except.ok g3
  exact h3

/-- C3: the wrap steps are claimed never to raise, falling back to the
original polygon when the repair is invalid.  The code contradicts this:
the south-pole wrap builds each interior-ring coordinate with an extra
tuple nesting, so the geometry constructor raises for any wrapped polygon
with a hole, and the antimeridian wrap reads an unassigned local when the
exterior ring has out-of-range longitudes on both sides. -/
theorem claim_C3_wrap_raises :
    _wrap_polygon_over_south_pole trueEngine (.polygon southHolePoly) =
      .error .typeError ∧
    _wrap_polygon_over_antimeridian trueEngine (.polygon mixedLonPoly) =
      .error .unboundLocalError := by
  exact ⟨rfl, rfl⟩

/-- C10: in both pole wraps the longitude shift is `+180` exactly when all
exterior longitudes are at most `0` (else `-180`); the shift and latitude
reflection are applied to exactly the vertices with latitude at least `90`
(north) or at most `-90` (south) — vertices exactly at the pole latitude
included — and the wrapped polygon returned on a valid repair is the
vertex-wise image under that map. -/
theorem claim_C10_pole_wrap_maps (E : GeoEngine) (p : Polygon) :
    (poleLonShift p = 180 ↔ ∀ c ∈ p.exterior, c.1 ≤ 0) ∧
    (∀ c : ℚ × ℚ, 90 ≤ c.2 →
      wrapNorthCoord (poleLonShift p) c = (c.1 + poleLonShift p, 180 - c.2)) ∧
    (∀ c : ℚ × ℚ, c.2 < 90 → wrapNorthCoord (poleLonShift p) c = c) ∧
    (∀ c : ℚ × ℚ, c.2 ≤ -90 →
      wrapSouthCoord (poleLonShift p) c = (c.1 + poleLonShift p, -180 - c.2)) ∧
    (∀ c : ℚ × ℚ, -90 < c.2 → wrapSouthCoord (poleLonShift p) c = c) ∧
    ((¬ ∀ c ∈ p.exterior, c.2 ≤ 90) →
      E.isValid (.polygon (northCandidate p)) = true →
      _wrap_polygon_over_north_pole E (.polygon p) =
        .ok (.polygon (northCandidate p))) ∧
    ((¬ ∀ c ∈ p.exterior, -90 ≤ c.2) → p.interiors = [] →
      E.isValid (.polygon (southCandidate p)) = true →
      _wrap_polygon_over_south_pole E (.polygon p) =
        .ok (.polygon (southCandidate p))) := by
  refine ⟨?_, ?_, ?_, ?_, ?_, ?_, ?_⟩
  · unfold poleLonShift
    by_cases hall : ∀ c ∈ p.exterior, c.1 ≤ 0
    · rw [if_pos (by simp only [List.all_eq_true, decide_eq_true_eq]; exact hall)]
      exact iff_of_true rfl hall
    · rw [if_neg (by simp only [List.all_eq_true, decide_eq_true_eq]; exact hall)]
      constructor
      · intro h
        norm_num at h
      · intro h
        exact absurd h hall
  · intro c h
    simp [wrapNorthCoord, h]
  · intro c h
    simp [wrapNorthCoord, not_le.mpr h]
  · intro c h
    simp [wrapSouthCoord, h]
  · intro c h
    simp [wrapSouthCoord, not_le.mpr h]
  · intro htrig hval
    have hb : (p.exterior.all fun c => decide (c.2 ≤ 90)) = false := by
      rw [List.all_eq_false]
      push_neg at htrig
      obtain ⟨c, hc, hgt⟩ := htrig
      exact ⟨c, hc, by simpa using hgt⟩
    show Except.ok (Geom.polygon (wrapNorthPoly E p)) =
      Except.ok (Geom.polygon (northCandidate p))
    rw [wrapNorthPoly_wrapped E p hb hval]
  · intro htrig hempty hval
    have hb : (p.exterior.all fun c => decide (c.2 ≥ -90)) = false := by
      rw [List.all_eq_false]
      push_neg at htrig
      obtain ⟨c, hc, hgt⟩ := htrig
      exact ⟨c, hc, by simpa using hgt⟩
    show Except.map Geom.polygon (wrapSouthPoly E p) =
      Except.ok (Geom.polygon (southCandidate p))
    rw [wrapSouthPoly_wrapped E p hb hempty hval]
    rfl

/-- C10 witness: concrete pole-crossing polygons exercise both wrap
conclusions; the vertex exactly at latitude `90` is shifted and
reflected. -/
theorem claim_C10_pole_wrap_maps_witness :
    _wrap_polygon_over_north_pole trueEngine (.polygon northOverPoly) =
      .ok (.polygon (northCandidate northOverPoly)) ∧
    _wrap_polygon_over_south_pole trueEngine (.polygon southOverPoly) =
      .ok (.polygon (southCandidate southOverPoly)) ∧
    wrapNorthCoord (poleLonShift northOverPoly) (-5, 90) = (175, 90) := by
  refine ⟨?_, ?_, ?_⟩
  · exact (claim_C10_pole_wrap_maps trueEngine northOverPoly).2.2.2.2.2.1
      (by decide) (by decide)
  · exact (claim_C10_pole_wrap_maps trueEngine southOverPoly).2.2.2.2.2.2
      (by decide) (by decide) (by decide)
  · have h := (claim_C10_pole_wrap_maps trueEngine northOverPoly).2.1 (-5, 90)
      (by norm_num)
    rw [h]
    norm_num [poleLonShift, northOverPoly]

/-- C8: a polygon already inside the standard coordinate ranges whose
consecutive exterior longitudes never jump by `180` or more passes through
`split_polygon` unchanged. -/
theorem claim_C8_identity (E : GeoEngine) (p : Polygon)
    (hext : ∀ c ∈ p.exterior, -180 ≤ c.1 ∧ c.1 ≤ 180 ∧ -90 ≤ c.2 ∧ c.2 ≤ 90)
    (hintr : ∀ r ∈ p.interiors, ∀ c ∈ r,
      -180 ≤ c.1 ∧ c.1 ≤ 180 ∧ -90 ≤ c.2 ∧ c.2 ≤ 90)
    (hdiff : ∀ d ∈ List.zipWith (fun a b => b - a)
      (p.exterior.map Prod.fst) (p.exterior.map Prod.fst).tail, |d| < 180) :
    split_polygon E (.polygon p) = .ok (.polygon p) := by
  have hanti : _split_polygon_antimeridian E (.polygon p) = .ok (.polygon p) := by
    have hb : ((p.exterior.map Prod.fst).zipWith (fun a b => b - a)
        (p.exterior.map Prod.fst).tail).all (fun d => decide (|d| < 180)) = true := by
      simp only [List.all_eq_true, decide_eq_true_eq]
      exact fun d hd => hdiff d hd
    simp [_split_polygon_antimeridian, splitAntiPoly, hb]
  have hsouth : _split_polygon_south_pole E (.polygon p) = .ok (.polygon p) := by
    have hb : p.exterior.all (fun c => decide (c.2 ≥ -90)) = true := by
      simp only [List.all_eq_true, decide_eq_true_eq, ge_iff_le]
      exact fun c hc => (hext c hc).2.2.1
    simp [_split_polygon_south_pole, splitSouthPoly, hb]
  have hnorth : _split_polygon_north_pole E (.polygon p) = .ok (.polygon p) := by
    have hb : p.exterior.all (fun c => decide (c.2 ≤ 90)) = true := by
      simp only [List.all_eq_true, decide_eq_true_eq]
      exact fun c hc => (hext c hc).2.2.2
    simp [_split_polygon_north_pole, splitNorthPoly, hb]
  exact split_polygon_eq E _ _ _ _ hanti hsouth hnorth

/-- C8 witness: a concrete in-range square with a hole is returned
unchanged. -/
theorem claim_C8_identity_witness :
    split_polygon trueEngine (.polygon squarePoly) = .ok (.polygon squarePoly) :=
  claim_C8_identity trueEngine squarePoly (by decide) (by decide)
    (by norm_num [squarePoly])

/-- C9, falsified as stated: `normalize_geometry` applied to a bare
non-polygonal geometry does not raise — it falls through every handled
`isinstance` case and returns the input unchanged. -/
theorem claim_C9_counterexample :
    normalize_geometry trueEngine (.geom .nonpolygonal) = .ok (.raw .nonpolygonal) := by
  rfl

/-- C9 as amended: the split operations raise `ValueError` on a
non-polygonal geometry; `normalize_geometry` raises `ValueError` on an
invalid `Polygon`/`MultiPolygon`, and both samplers raise `ValueError` on
an invalid mask; but a bare non-polygonal geometry given to
`normalize_geometry` is returned unchanged without raising. -/
theorem claim_C9_amended (E : GeoEngine) (p : Polygon) (ps : List Polygon)
    (m : MaskData) (d : ℝ)
    (hp : E.isValid (.polygon p) = false)
    (hps : E.isValid (.multipolygon ps) = false)
    (hm : m.isValidB = false) :
    _split_polygon_antimeridian E .nonpolygonal =
      .error (.valueError "Unknown geometry") ∧
    _split_polygon_south_pole E .nonpolygonal =
      .error (.valueError "Unknown geometry") ∧
    _split_polygon_north_pole E .nonpolygonal =
      .error (.valueError "Unknown geometry") ∧
    split_polygon E .nonpolygonal = .error (.valueError "Unknown geometry") ∧
    normalize_geometry E (.geom (.polygon p)) =
      .error (.valueError "Geometry is not a valid Polygon or MultiPolygon.") ∧
    normalize_geometry E (.geom (.multipolygon ps)) =
      .error (.valueError "Geometry is not a valid Polygon or MultiPolygon.") ∧
    generate_fibonacci_lattice_points d (some m) =
      .error (.valueError "Mask is not a valid Polygon or MultiPolygon.") ∧
    _generate_cubed_sphere_points (degrees (d / EARTH_MEAN_RADIUS))
        (degrees (d / EARTH_MEAN_RADIUS)) (some m) =
      .error (.valueError "Mask is not a valid Polygon or MultiPolygon.") ∧
    generate_cubed_sphere_points d (some m) =
      .error (.valueError "Mask is not a valid Polygon or MultiPolygon.") ∧
    normalize_geometry E (.geom .nonpolygonal) = .ok (.raw .nonpolygonal) := by
  refine ⟨rfl, rfl, rfl, rfl, ?_, ?_, ?_, ?_, ?_, rfl⟩
  · simp [normalize_geometry, hp]
  · simp [normalize_geometry, hps]
  · simp [generate_fibonacci_lattice_points, hm]
  · simp [_generate_cubed_sphere_points, hm]
  · simp [generate_cubed_sphere_points, _generate_cubed_sphere_points, hm]

/-- C9 witness: concrete invalid inputs raise, and the non-polygonal
fall-through returns the input. -/
theorem claim_C9_amended_witness :
    normalize_geometry falseEngine (.geom (.polygon squarePoly)) =
      .error (.valueError "Geometry is not a valid Polygon or MultiPolygon.") ∧
    generate_fibonacci_lattice_points 1 (some maskInvalid) =
      .error (.valueError "Mask is not a valid Polygon or MultiPolygon.") ∧
    normalize_geometry falseEngine (.geom .nonpolygonal) = .ok (.raw .nonpolygonal) := by
  refine ⟨?_, ?_, ?_⟩
  · exact (claim_C9_amended falseEngine squarePoly [] maskInvalid 1 rfl rfl rfl).2.2.2.2.1
  · exact (claim_C9_amended falseEngine squarePoly [] maskInvalid 1 rfl rfl rfl).2.2.2.2.2.2.1
  · exact (claim_C9_amended falseEngine squarePoly [] maskInvalid 1 rfl rfl rfl).2.2.2.2.2.2.2.2.2

theorem lon_rect170 (a b : ℚ) :
    (rect170 a b).exterior.map Prod.fst = [(170 : ℚ), -170, -170, 170, 170] := rfl

theorem antiShift_rect170 :
    antiShift [(170 : ℚ), -170, -170, 170, 170] = [0, -1, -1, 0, 0] := by
  have hceil : ⌈(17 : ℚ)/18⌉ = 1 := by
    rw [Int.ceil_eq_iff] <;> norm_num
  simp only [antiShift, List.tail_cons, List.zipWith_cons_cons,
    List.zipWith_nil_right, List.map_cons, List.map_nil, List.scanl]
  norm_num [qRound, Int.fract, hceil]

theorem antiUnwrapped_rect170 (a b : ℚ) :
    antiUnwrapped (rect170 a b) = rect170Unwrapped a b := by
  unfold antiUnwrapped
  rw [lon_rect170, antiShift_rect170]
  simp only [rect170, rect170Unwrapped, List.zip_cons_cons, List.zip_nil_right,
    List.map_cons, List.map_nil, Polygon.mk.injEq, Prod.mk.injEq, List.cons.injEq]
  norm_num

theorem antiDir_shift_rect170 : antiDir [0, -1, -1, 0, 0] = 180 := by
  have h : ¬ (1 : ℤ) ≤ [(0 : ℤ), -1, -1, 0, 0].foldl max 0 := by decide
  simp [antiDir, h]

/-- C5: a polygon whose exterior ring crosses the antimeridian from
longitude `170` over to `190` (written with wrapped coordinates, so the
ring jumps `170` to `-170`) is normalized by `split_polygon` into a
`MultiPolygon` of exactly two parts, one with longitudes within
`[170, 180]` and one with longitudes within `[-180, -170]`, given that the
engine cuts the unwrapped ring at `180` into an eastern part `P1` (in
`[170, 180]`) and a western part `P2` (in `[180, 190]`, reaching beyond
`180`) and accepts the re-wrapped western part as valid. -/
theorem claim_C5_antimeridian_two_parts (E : GeoEngine) (a b : ℚ) (P1 P2 : Polygon)
    (hsplit : E.splitLine (.polygon (rect170Unwrapped a b))
      [((180 : ℚ), (-180 : ℚ)), (180, 180)] = [.polygon P1, .polygon P2])
    (hP1 : ∀ c ∈ P1.exterior, 170 ≤ c.1 ∧ c.1 ≤ 180 ∧ -90 ≤ c.2 ∧ c.2 ≤ 90)
    (hP2 : ∀ c ∈ P2.exterior, 180 ≤ c.1 ∧ c.1 ≤ 190 ∧ -90 ≤ c.2 ∧ c.2 ≤ 90)
    (hP2beyond : ∃ c ∈ P2.exterior, 180 < c.1)
    (hval : E.isValid (.polygon (shiftWest P2)) = true) :
    split_polygon E (.polygon (rect170 a b)) =
      .ok (.multipolygon [P1, shiftWest P2]) ∧
    (∀ c ∈ P1.exterior, 170 ≤ c.1 ∧ c.1 ≤ 180) ∧
    (∀ c ∈ (shiftWest P2).exterior, -180 ≤ c.1 ∧ c.1 ≤ -170) := by
  have hstage1 : _split_polygon_antimeridian E (.polygon (rect170 a b)) =
      _wrap_polygon_over_antimeridian E (_convert_collection_to_polygon
        (E.splitLine (.polygon (rect170Unwrapped a b))
          [((180 : ℚ), (-180 : ℚ)), (180, 180)])) := by
    show splitAntiPoly E (rect170 a b) = _
    unfold splitAntiPoly
    rw [if_neg (by norm_num [rect170])]
    rw [lon_rect170, antiShift_rect170, antiDir_shift_rect170,
      antiUnwrapped_rect170]
  have hconv : _convert_collection_to_polygon [.polygon P1, .polygon P2] =
      .multipolygon [P1, P2] := rfl
  have w1 : wrapAntiPoly E P1 = .ok P1 := by
    unfold wrapAntiPoly
    rw [if_pos]
    simp only [List.all_eq_true, decide_eq_true_eq]
    intro c hc
    exact ⟨by linarith [(hP1 c hc).1], (hP1 c hc).2.1⟩
  have w2 : wrapAntiPoly E P2 = .ok (shiftWest P2) := by
    obtain ⟨c0, hc0, hc0gt⟩ := hP2beyond
    have hnotin : ¬ ((P2.exterior.all fun c =>
        decide (-180 ≤ c.1 ∧ c.1 ≤ 180)) = true) := by
      simp only [List.all_eq_true, decide_eq_true_eq]
      push_neg
      exact ⟨c0, hc0, fun _ => by linarith⟩
    have hnotlow : ¬ ((P2.exterior.all fun c => decide (c.1 ≤ -180)) = true) := by
      simp only [List.all_eq_true, decide_eq_true_eq]
      intro h
      linarith [h c0 hc0]
    have hge : (P2.exterior.all fun c => decide (c.1 ≥ 180)) = true := by
      simp only [List.all_eq_true, decide_eq_true_eq, ge_iff_le]
      exact fun c hc => (hP2 c hc).1
    unfold wrapAntiPoly
    rw [if_neg hnotin, if_neg hnotlow, if_pos hge]
    show (if E.isValid (.polygon (shiftWest P2)) = true then
      Except.ok (shiftWest P2) else Except.ok P2) = Except.ok (shiftWest P2)
    rw [if_pos hval]
  have hwrap : _wrap_polygon_over_antimeridian E (.multipolygon [P1, P2]) =
      .ok (.multipolygon [P1, shiftWest P2]) := by
    show Except.map Geom.multipolygon (List.mapM (wrapAntiPoly E) [P1, P2]) = _
    simp [List.mapM.loop, w1, w2]
    rfl
  have s1 : splitSouthPoly E P1 = .ok (.polygon P1) := by
    unfold splitSouthPoly
    rw [if_pos]
    simp only [List.all_eq_true, decide_eq_true_eq, ge_iff_le]
    exact fun c hc => (hP1 c hc).2.2.1
  have s2 : splitSouthPoly E (shiftWest P2) = .ok (.polygon (shiftWest P2)) := by
    unfold splitSouthPoly
    rw [if_pos]
    simp only [List.all_eq_true, decide_eq_true_eq, ge_iff_le]
    intro c hc
    simp only [shiftWest, List.mem_map] at hc
    obtain ⟨c', hc', rfl⟩ := hc
    exact (hP2 c' hc').2.2.1
  have hsouth : _split_polygon_south_pole E (.multipolygon [P1, shiftWest P2]) =
      .ok (.multipolygon [P1, shiftWest P2]) := by
    show Except.map _ (List.mapM (splitSouthPoly E) [P1, shiftWest P2]) = _
    simp [List.mapM.loop, s1, s2]
    rfl
  have n1 : splitNorthPoly E P1 = .ok (.polygon P1) := by
    unfold splitNorthPoly
    rw [if_pos]
    simp only [List.all_eq_true, decide_eq_true_eq]
    exact fun c hc => (hP1 c hc).2.2.2
  have n2 : splitNorthPoly E (shiftWest P2) = .ok (.polygon (shiftWest P2)) := by
    unfold splitNorthPoly
    rw [if_pos]
    simp only [List.all_eq_true, decide_eq_true_eq]
    intro c hc
    simp only [shiftWest, List.mem_map] at hc
    obtain ⟨c', hc', rfl⟩ := hc
    exact (hP2 c' hc').2.2.2
  have hnorth : _split_polygon_north_pole E (.multipolygon [P1, shiftWest P2]) =
      .ok (.multipolygon [P1, shiftWest P2]) := by
    show Except.map _ (List.mapM (splitNorthPoly E) [P1, shiftWest P2]) = _
    simp [List.mapM.loop, n1, n2]
    rfl
  refine ⟨?_, ?_, ?_⟩
  · refine split_polygon_eq E _ _ _ _ ?_ hsouth hnorth
    rw [hstage1, hsplit, hconv, hwrap]
  · exact fun c hc => ⟨(hP1 c hc).1, (hP1 c hc).2.1⟩
  · intro c hc
    simp only [shiftWest, List.mem_map] at hc
    obtain ⟨c', hc', rfl⟩ := hc
    constructor
    · simp only
      linarith [(hP2 c' hc').1]
    · simp only
      linarith [(hP2 c' hc').2.1]

/-- C5 witness: a concrete engine splitting the concrete rectangle at
`180` produces the two predicted parts. -/
theorem claim_C5_antimeridian_two_parts_witness :
    engineRect.splitLine (.polygon (rect170Unwrapped (-10) 10))
      [((180 : ℚ), (-180 : ℚ)), (180, 180)] =
      [.polygon rectPartWest, .polygon rectPartEast] ∧
    split_polygon engineRect (.polygon (rect170 (-10) 10)) =
      .ok (.multipolygon [rectPartWest, shiftWest rectPartEast]) := by
  refine ⟨rfl, ?_⟩
  exact (claim_C5_antimeridian_two_parts engineRect (-10) 10 rectPartWest
    rectPartEast rfl (by decide) (by decide)
    ⟨(190, -10), by decide, by norm_num⟩ rfl).1

theorem earth_radius_pos : 0 < EARTH_MEAN_RADIUS := by
  norm_num [EARTH_MEAN_RADIUS]

theorem npMod_nonneg (x y : ℝ) (hy : 0 < y) : 0 ≤ npMod x y := by
  unfold npMod
  have h := Int.floor_le (x / y)
  have h2 : y * ((⌊x / y⌋ : ℤ) : ℝ) ≤ y * (x / y) := mul_le_mul_of_nonneg_left h hy.le
  have h3 : y * (x / y) = x := by field_simp
  linarith

theorem npMod_lt (x y : ℝ) (hy : 0 < y) : npMod x y < y := by
  unfold npMod
  have h := Int.lt_floor_add_one (x / y)
  have h2 : y * (x / y) < y * (((⌊x / y⌋ : ℤ) : ℝ) + 1) := mul_lt_mul_of_pos_left h hy
  have h3 : y * (x / y) = x := by field_simp
  nlinarith

theorem fibLongitude_mem (i n : ℕ) :
    -180 < fibLongitude i n ∧ fibLongitude i n ≤ 180 := by
  have h0 := npMod_nonneg (360 * (i : ℝ) / ((1 + Real.sqrt 5) / 2)) 360 (by norm_num)
  have h1 := npMod_lt (360 * (i : ℝ) / ((1 + Real.sqrt 5) / 2)) 360 (by norm_num)
  show (-180 < if npMod (360 * (i : ℝ) / ((1 + Real.sqrt 5) / 2)) 360 > 180 then
      npMod (360 * (i : ℝ) / ((1 + Real.sqrt 5) / 2)) 360 - 360
    else npMod (360 * (i : ℝ) / ((1 + Real.sqrt 5) / 2)) 360) ∧
    (if npMod (360 * (i : ℝ) / ((1 + Real.sqrt 5) / 2)) 360 > 180 then
      npMod (360 * (i : ℝ) / ((1 + Real.sqrt 5) / 2)) 360 - 360
    else npMod (360 * (i : ℝ) / ((1 + Real.sqrt 5) / 2)) 360) ≤ 180
  split_ifs with h
  · constructor <;> linarith
  · constructor <;> linarith

theorem fibArg_gt (i n : ℕ) : -1 < 2 * ((i : ℝ) + 1) / ((n : ℝ) + 2) - 1 := by
  have hn : (0 : ℝ) < (n : ℝ) + 2 := by positivity
  have hi : (0 : ℝ) < (i : ℝ) + 1 := by positivity
  have : 0 < 2 * ((i : ℝ) + 1) / ((n : ℝ) + 2) := by positivity
  linarith

theorem fibArg_lt (i n : ℕ) (h : i ≤ n) :
    2 * ((i : ℝ) + 1) / ((n : ℝ) + 2) - 1 < 1 := by
  have hn : (0 : ℝ) < (n : ℝ) + 2 := by positivity
  have hi : ((i : ℝ) + 1) < (n : ℝ) + 2 := by
    have : (i : ℝ) ≤ (n : ℝ) := by exact_mod_cast h
    linarith
  have h2 : 2 * ((i : ℝ) + 1) / ((n : ℝ) + 2) < 2 := by
    rw [div_lt_iff hn]
    nlinarith
  linarith

theorem fibLatitude_strict (i n : ℕ) (h : i ≤ n) :
    -90 < fibLatitude i n ∧ fibLatitude i n < 90 := by
  unfold fibLatitude degrees
  have hgt := fibArg_gt i n
  have hlt := fibArg_lt i n h
  have ha : Real.arcsin (2 * ((i : ℝ) + 1) / ((n : ℝ) + 2) - 1) < π / 2 :=
    Real.arcsin_lt_pi_div_two.mpr hlt
  have hb : -(π / 2) < Real.arcsin (2 * ((i : ℝ) + 1) / ((n : ℝ) + 2) - 1) :=
    Real.neg_pi_div_two_lt_arcsin.mpr hgt
  have hpi : (0 : ℝ) < 180 / π := by positivity
  constructor
  · have := mul_lt_mul_of_pos_right hb hpi
    calc (-90 : ℝ) = -(π / 2) * (180 / π) := by field_simp; ring
    _ < _ := this
  · have := mul_lt_mul_of_pos_right ha hpi
    calc Real.arcsin (2 * ((i : ℝ) + 1) / ((n : ℝ) + 2) - 1) * (180 / π)
        < π / 2 * (180 / π) := this
    _ = 90 := by field_simp; ring

theorem fibLatitude_range (i n : ℕ) :
    -90 ≤ fibLatitude i n ∧ fibLatitude i n ≤ 90 := by
  unfold fibLatitude degrees
  have ha := Real.arcsin_le_pi_div_two (2 * ((i : ℝ) + 1) / ((n : ℝ) + 2) - 1)
  have hb := Real.neg_pi_div_two_le_arcsin (2 * ((i : ℝ) + 1) / ((n : ℝ) + 2) - 1)
  have hpi : (0 : ℝ) < 180 / π := by positivity
  constructor
  · have := mul_le_mul_of_nonneg_right hb hpi.le
    calc (-90 : ℝ) = -(π / 2) * (180 / π) := by field_simp; ring
    _ ≤ _ := this
  · have := mul_le_mul_of_nonneg_right ha hpi.le
    calc Real.arcsin (2 * ((i : ℝ) + 1) / ((n : ℝ) + 2) - 1) * (180 / π)
        ≤ π / 2 * (180 / π) := this
    _ = 90 := by field_simp; ring

theorem fibLatitude_strictMono (i j n : ℕ) (hij : i < j) (hj : j ≤ n) :
    fibLatitude i n < fibLatitude j n := by
  unfold fibLatitude degrees
  have hn : (0 : ℝ) < (n : ℝ) + 2 := by positivity
  have hargs : 2 * ((i : ℝ) + 1) / ((n : ℝ) + 2) < 2 * ((j : ℝ) + 1) / ((n : ℝ) + 2) := by
    have hij2 : (i : ℝ) < (j : ℝ) := by exact_mod_cast hij
    rw [div_lt_div_iff hn hn]
    nlinarith
  have harcsin : Real.arcsin (2 * ((i : ℝ) + 1) / ((n : ℝ) + 2) - 1) <
      Real.arcsin (2 * ((j : ℝ) + 1) / ((n : ℝ) + 2) - 1) := by
    apply Real.strictMonoOn_arcsin
    · constructor
      · exact (fibArg_gt i n).le
      · exact (fibArg_lt i n (le_trans hij.le hj)).le
    · constructor
      · exact (fibArg_gt j n).le
      · exact (fibArg_lt j n hj).le
    · linarith
  have hpi : (0 : ℝ) < 180 / π := by positivity
  exact mul_lt_mul_of_pos_right harcsin hpi

theorem npRound_intCast (n : ℤ) : npRound ((n : ℝ)) = n := by
  unfold npRound
  rw [Int.fract_intCast]
  rw [if_pos (by norm_num)]
  exact Int.floor_intCast n

theorem npRound_zero : npRound 0 = 0 := by
  simpa using npRound_intCast 0

theorem npRound_eq_floor_or (x : ℝ) :
    npRound x = ⌊x⌋ ∨ npRound x = ⌊x⌋ + 1 := by
  unfold npRound
  split_ifs with h1 h2 h3
  · exact Or.inl rfl
  · right
    have hceil := Int.ceil_le_floor_add_one x
    have hfl : (⌊x⌋ : ℝ) = x - Int.fract x := by rw [Int.self_sub_fract]
    have hlt : ((⌊x⌋ : ℤ) : ℝ) < ((⌈x⌉ : ℤ) : ℝ) := by
      have := Int.le_ceil x
      rw [hfl]
      linarith
    have hlow : ⌊x⌋ < ⌈x⌉ := by exact_mod_cast hlt
    omega
  · exact Or.inl rfl
  · exact Or.inr rfl

theorem npRound_sub_floor_abs (x : ℝ) : |npRound x - ⌊x⌋| ≤ 1 := by
  rcases npRound_eq_floor_or x with h | h <;> rw [h] <;> simp

theorem npRound_le_add_half (x : ℝ) : (npRound x : ℝ) ≤ x + 1 / 2 := by
  have hfr0 := Int.fract_nonneg x
  have hfr1 := Int.fract_lt_one x
  have hfl : (⌊x⌋ : ℝ) = x - Int.fract x := by
    rw [Int.self_sub_fract]
  unfold npRound
  split_ifs with h1 h2 h3
  · rw [hfl]
    linarith
  · have hceil := Int.ceil_le_floor_add_one x
    have : ((⌈x⌉ : ℤ) : ℝ) ≤ ((⌊x⌋ + 1 : ℤ) : ℝ) := by exact_mod_cast hceil
    push_cast at this
    rw [hfl] at this
    linarith
  · rw [hfl]
    linarith
  · push_cast
    rw [hfl]
    linarith

theorem sub_half_le_npRound (x : ℝ) : x - 1 / 2 ≤ (npRound x : ℝ) := by
  have hfr0 := Int.fract_nonneg x
  have hfr1 := Int.fract_lt_one x
  have hfl : (⌊x⌋ : ℝ) = x - Int.fract x := by
    rw [Int.self_sub_fract]
  unfold npRound
  split_ifs with h1 h2 h3
  · rw [hfl]
    linarith
  · have := Int.le_ceil x
    linarith
  · rw [hfl]
    linarith
  · push_cast
    rw [hfl]
    linarith

theorem npRound_nonneg (x : ℝ) (hx : 0 ≤ x) : 0 ≤ npRound x := by
  have h0 : 0 ≤ ⌊x⌋ := Int.floor_nonneg.mpr hx
  rcases npRound_eq_floor_or x with h | h <;> omega

theorem npRound_eq_low (x : ℝ) (n : ℤ) (h1 : (n : ℝ) ≤ x)
    (h2 : x < (n : ℝ) + 1 / 2) : npRound x = n := by
  have hf : ⌊x⌋ = n := Int.floor_eq_iff.mpr ⟨h1, by push_cast; linarith⟩
  have hfr : Int.fract x < 1 / 2 := by
    have : Int.fract x = x - ((⌊x⌋ : ℤ) : ℝ) := rfl
    rw [this, hf]
    push_cast
    linarith
  unfold npRound
  rw [if_pos hfr, hf]

theorem npRound_eq_high (x : ℝ) (n : ℤ) (h1 : (n : ℝ) + 1 / 2 < x)
    (h2 : x < (n : ℝ) + 1) : npRound x = n + 1 := by
  have hf : ⌊x⌋ = n := Int.floor_eq_iff.mpr ⟨by linarith, by push_cast; linarith⟩
  have hc : ⌈x⌉ = n + 1 := Int.ceil_eq_iff.mpr
    ⟨by push_cast; linarith, by push_cast; linarith⟩
  have hfr : 1 / 2 < Int.fract x := by
    have : Int.fract x = x - ((⌊x⌋ : ℤ) : ℝ) := rfl
    rw [this, hf]
    linarith
  unfold npRound
  rw [if_neg (by linarith), if_pos hfr, hc]

theorem npRound_eq_half_even (x : ℝ) (n : ℤ) (h : x = (n : ℝ) + 1 / 2)
    (he : Even n) : npRound x = n := by
  have hf : ⌊x⌋ = n := Int.floor_eq_iff.mpr ⟨by linarith, by push_cast; linarith⟩
  have hfr : Int.fract x = 1 / 2 := by
    have h0 : Int.fract x = x - ((⌊x⌋ : ℤ) : ℝ) := rfl
    rw [h0, hf, h]
    ring
  unfold npRound
  rw [if_neg (by rw [hfr]; norm_num), if_neg (by rw [hfr]; norm_num),
    if_pos (hf ▸ he), hf]

theorem intTrunc_of_nonneg (x : ℝ) (hx : 0 ≤ x) : intTrunc x = ⌊x⌋ := if_pos hx

theorem intRange_length (a b : ℤ) : (intRange a b).length = (b - a).toNat := by
  rw [intRange, List.length_map, List.length_range]

theorem mem_intRange (a b k : ℤ) : k ∈ intRange a b ↔ a ≤ k ∧ k < b := by
  simp only [intRange, List.mem_map, List.mem_range]
  constructor
  · rintro ⟨m, hm, rfl⟩
    omega
  · intro ⟨h1, h2⟩
    exact ⟨(k - a).toNat, by omega, by omega⟩

theorem intRange_nodup (a b : ℤ) : (intRange a b).Nodup := by
  apply List.Nodup.map
  · intro x y h
    simp only [add_right_inj, Nat.cast_inj] at h
    exact h
  · exact List.nodup_range _

theorem length_flatMap_const {α β γ : Type} (l1 : List α) (l2 : List β)
    (f : α → β → γ) :
    (l1.flatMap fun j => l2.map (f j)).length = l1.length * l2.length := by
  induction l1 with
  | nil => simp
  | cons a t ih =>
    simp only [List.flatMap_cons, List.length_append, List.length_map, ih,
      List.length_cons]
    ring

theorem nsamples_piR : compute_number_samples (π * EARTH_MEAN_RADIUS) = 2 := by
  have hR := earth_radius_pos
  have hπ := Real.pi_pos
  show intTrunc (EARTH_SURFACE_AREA / (2 * π * EARTH_MEAN_RADIUS *
    (EARTH_MEAN_RADIUS - EARTH_MEAN_RADIUS *
      Real.cos (π * EARTH_MEAN_RADIUS / EARTH_MEAN_RADIUS / 2)))) = 2
  have h1 : π * EARTH_MEAN_RADIUS / EARTH_MEAN_RADIUS / 2 = π / 2 := by
    field_simp
  rw [h1, Real.cos_pi_div_two]
  have h2 : EARTH_SURFACE_AREA / (2 * π * EARTH_MEAN_RADIUS *
      (EARTH_MEAN_RADIUS - EARTH_MEAN_RADIUS * 0)) = 2 := by
    unfold EARTH_SURFACE_AREA
    field_simp
    ring
  rw [h2]
  unfold intTrunc
  rw [if_pos (by norm_num)]
  norm_num

/-- C1: with no mask and distance `d > 0`, the candidate points of
`generate_fibonacci_lattice_points` are exactly the records
`(i, longitude(i), latitude(i))` for `i` below the computed global sample
count `N`, where `latitude(i) = degrees(arcsin(2(i+1)/(N+2) - 1))` and
`longitude(i)` is `(360 i / φ) mod 360` with `φ = (1+√5)/2`, reduced into
`(-180, 180]` by subtracting `360` when the `mod`-value exceeds `180`;
the latitudes are strictly increasing in `i` and never exactly `±90`. -/
theorem claim_C1_lattice_closed_forms (d : ℝ) (hd : 0 < d) :
    generate_fibonacci_lattice_points d none =
      .ok ((List.range (compute_number_samples d).toNat).map fun i =>
        (i, fibLongitude i (compute_number_samples d).toNat,
          fibLatitude i (compute_number_samples d).toNat)) ∧
    (∀ i : ℕ, fibLatitude i (compute_number_samples d).toNat =
        degrees (Real.arcsin (2 * ((i : ℝ) + 1) /
          (((compute_number_samples d).toNat : ℝ) + 2) - 1)) ∧
      fibLongitude i (compute_number_samples d).toNat =
        (if npMod (360 * (i : ℝ) / ((1 + Real.sqrt 5) / 2)) 360 > 180 then
          npMod (360 * (i : ℝ) / ((1 + Real.sqrt 5) / 2)) 360 - 360
        else npMod (360 * (i : ℝ) / ((1 + Real.sqrt 5) / 2)) 360)) ∧
    (∀ i j : ℕ, i < j → j < (compute_number_samples d).toNat →
      fibLatitude i (compute_number_samples d).toNat <
        fibLatitude j (compute_number_samples d).toNat) ∧
    (∀ i : ℕ, i < (compute_number_samples d).toNat →
      fibLatitude i (compute_number_samples d).toNat ≠ 90 ∧
      fibLatitude i (compute_number_samples d).toNat ≠ -90) := by
  refine ⟨rfl, fun i => ⟨rfl, rfl⟩, ?_, ?_⟩
  · intro i j hij hj
    exact fibLatitude_strictMono i j _ hij hj.le
  · intro i hi
    have h := fibLatitude_strict i _ hi.le
    exact ⟨ne_of_lt h.2, ne_of_gt h.1⟩

/-- C1 witness: at distance `π`·(mean radius) the sample count is `2` and
the two latitudes are strictly ordered and away from the poles. -/
theorem claim_C1_lattice_closed_forms_witness :
    0 < π * EARTH_MEAN_RADIUS ∧
    fibLatitude 0 2 < fibLatitude 1 2 ∧
    fibLatitude 0 2 ≠ 90 ∧ fibLatitude 0 2 ≠ -90 := by
  have hd : 0 < π * EARTH_MEAN_RADIUS :=
    mul_pos Real.pi_pos earth_radius_pos
  have h := claim_C1_lattice_closed_forms (π * EARTH_MEAN_RADIUS) hd
  rw [nsamples_piR] at h
  norm_num at h
  exact ⟨hd, h.2.2.1 0 1 (by norm_num) (by norm_num),
    h.2.2.2 0 (by norm_num)⟩

theorem theta40 : degrees (2 * π * EARTH_MEAN_RADIUS / 9 / EARTH_MEAN_RADIUS) = 40 := by
  have hR := earth_radius_pos.ne.symm
  have hπ := Real.pi_pos.ne.symm
  unfold degrees
  field_simp
  ring

/-- C6: with no mask and angular step `θ = degrees(d / mean radius)`, the
grid generator returns `round(360/θ) · round(180/θ)` records — within one
per axis of `⌊360/θ⌋ · ⌊180/θ⌋` — each record placed at
`(-180 + (i+1/2)θ, -90 + (j+1/2)θ)` for its grid indices, with adjacent
centroids exactly `θ` apart on both axes. -/
theorem claim_C6_grid_structure (d θ : ℝ) (hd : 0 < d)
    (hθ : θ = degrees (d / EARTH_MEAN_RADIUS)) :
    generate_cubed_sphere_points d none =
      .ok (gridRecords θ θ (-180) (-90) 180 90 none) ∧
    ((gridRecords θ θ (-180) (-90) 180 90 none).length : ℤ) =
      npRound (360 / θ) * npRound (180 / θ) ∧
    |npRound (360 / θ) - ⌊360 / θ⌋| ≤ 1 ∧
    |npRound (180 / θ) - ⌊180 / θ⌋| ≤ 1 ∧
    (∀ r ∈ gridRecords θ θ (-180) (-90) 180 90 none, ∃ i j : ℤ,
      r = (_compute_id i j θ θ, gridLon θ i, gridLat θ j)) ∧
    (∀ i j : ℤ, gridLon θ (i + 1) - gridLon θ i = θ ∧
      gridLat θ (j + 1) - gridLat θ j = θ) := by
  have hθpos : 0 < θ := by
    rw [hθ]
    unfold degrees
    have := earth_radius_pos
    have := Real.pi_pos
    positivity
  have hgr : gridRecords θ θ (-180) (-90) 180 90 none =
      ((intRange 0 (npRound (180 / θ))).flatMap fun j =>
        (intRange 0 (npRound (360 / θ))).map fun i => (i, j)).map
      (fun p => (_compute_id p.1 p.2 θ θ, gridLon θ p.1, gridLat θ p.2)) := by
    unfold gridRecords
    norm_num [npRound_zero]
  refine ⟨?_, ?_, npRound_sub_floor_abs _, npRound_sub_floor_abs _, ?_, ?_⟩
  · rw [hθ]
    rfl
  · rw [hgr, List.length_map, length_flatMap_const, intRange_length,
      intRange_length]
    have h1 : 0 ≤ npRound (180 / θ) := npRound_nonneg _ (by positivity)
    have h2 : 0 ≤ npRound (360 / θ) := npRound_nonneg _ (by positivity)
    push_cast [Int.toNat_of_nonneg (by omega : (0 : ℤ) ≤ npRound (180 / θ) - 0),
      Int.toNat_of_nonneg (by omega : (0 : ℤ) ≤ npRound (360 / θ) - 0)]
    ring
  · rw [hgr]
    intro r hr
    rw [List.mem_map] at hr
    obtain ⟨p, _, rfl⟩ := hr
    exact ⟨p.1, p.2, rfl⟩
  · intro i j
    unfold gridLon gridLat
    constructor
    all_goals
      push_cast
      ring

/-- C6 witness: at distance `2π`·(mean radius)`/9` the step is exactly
`40°` and the record count and spacing conclusions hold concretely. -/
theorem claim_C6_grid_structure_witness :
    0 < 2 * π * EARTH_MEAN_RADIUS / 9 ∧
    ((gridRecords 40 40 (-180) (-90) 180 90 none).length : ℤ) =
      npRound (360 / 40) * npRound (180 / 40) ∧
    (∀ i j : ℤ, gridLon 40 (i + 1) - gridLon 40 i = 40 ∧
      gridLat 40 (j + 1) - gridLat 40 j = 40) := by
  have hd : 0 < 2 * π * EARTH_MEAN_RADIUS / 9 := by
    have := earth_radius_pos
    have := Real.pi_pos
    positivity
  have h := claim_C6_grid_structure (2 * π * EARTH_MEAN_RADIUS / 9) 40 hd
    theta40.symm
  exact ⟨hd, h.2.1, h.2.2.2.2.2⟩

/-- The row-major grid index enumeration has no duplicate pairs. -/
theorem nodup_grid_pairs (jl il : List ℤ) (hj : jl.Nodup) (hi : il.Nodup) :
    (jl.flatMap fun j => il.map fun i => (i, j)).Nodup := by
  induction jl with
  | nil => simp
  | cons j t ih =>
    rw [List.flatMap_cons, List.nodup_append]
    refine ⟨?_, ih (List.Nodup.of_cons hj), ?_⟩
    · apply List.Nodup.map_on ?_ hi
      intro x _ y _ hxy
      exact ((Prod.mk.injEq _ _ _ _).mp hxy).1
    · intro p hp hp2
      rw [List.mem_map] at hp
      obtain ⟨i, _, rfl⟩ := hp
      rw [List.mem_flatMap] at hp2
      obtain ⟨j', hj', hmem⟩ := hp2
      rw [List.mem_map] at hmem
      obtain ⟨i', _, heq⟩ := hmem
      have hjj : j' = j := ((Prod.mk.injEq _ _ _ _).mp heq).2
      rw [hjj] at hj'
      exact (List.nodup_cons.mp hj).1 hj'

/-- Distinct grid indices in a longitude window of length at most `W` give
distinct flattened ids `j*W + (i mod W)`. -/
theorem gridId_inj (W a b : ℤ) (hW : 1 ≤ W) (hb : b - a ≤ W)
    (i1 j1 i2 j2 : ℤ) (hi1 : a ≤ i1 ∧ i1 < b) (hi2 : a ≤ i2 ∧ i2 < b)
    (hid : j1 * W + i1 % W = j2 * W + i2 % W) : i1 = i2 ∧ j1 = j2 := by
  have hW0 : (0 : ℤ) < W := by omega
  have hr1 : 0 ≤ i1 % W := Int.emod_nonneg i1 (by omega)
  have hr2 : 0 ≤ i2 % W := Int.emod_nonneg i2 (by omega)
  have hr1' : i1 % W < W := Int.emod_lt_of_pos i1 hW0
  have hr2' : i2 % W < W := Int.emod_lt_of_pos i2 hW0
  have hj : j1 = j2 := by
    by_contra hne
    rcases lt_or_gt_of_ne hne with h | h
    · have h1 : j1 + 1 ≤ j2 := by omega
      have h2 : (j1 + 1) * W ≤ j2 * W := mul_le_mul_of_nonneg_right h1 hW0.le
      nlinarith
    · have h1 : j2 + 1 ≤ j1 := by omega
      have h2 : (j2 + 1) * W ≤ j1 * W := mul_le_mul_of_nonneg_right h1 hW0.le
      nlinarith
  subst hj
  have hmod : i1 % W = i2 % W := by omega
  have hdvd : W ∣ i2 - i1 := Int.ModEq.dvd hmod
  have habs : |i2 - i1| < W := abs_lt.mpr ⟨by omega, by omega⟩
  have hz : i2 - i1 = 0 := Int.eq_zero_of_abs_lt_dvd hdvd habs
  exact ⟨by omega, rfl⟩

/-- C7 as amended: for a generation call with angular step `θ`, every
point id is `j·⌊360/θ⌋ + (i mod ⌊360/θ⌋)` for its grid indices `(i, j)`,
the enumeration is row-major (south-to-north outer, west-to-east inner),
and the ids are pairwise distinct provided the longitude index range is no
longer than `⌊360/θ⌋`; when the rounded column count exceeds `⌊360/θ⌋`
(possible since the range uses `round` but the id uses `mod ⌊360/θ⌋`),
ids repeat. -/
theorem claim_C7_amended (θ minLon minLat maxLon maxLat : ℝ)
    (clip : Option (ℝ → ℝ → Bool)) (hθpos : 0 < θ)
    (hW : 1 ≤ ⌊360 / θ⌋)
    (hcols : npRound ((maxLon + 180) / θ) - npRound ((minLon + 180) / θ) ≤
      ⌊360 / θ⌋) :
    (∀ i j : ℤ, _compute_id i j θ θ = j * ⌊360 / θ⌋ + i % ⌊360 / θ⌋) ∧
    (∀ m : MaskData, m.isValidB = true →
      _generate_cubed_sphere_points θ θ (some m) =
        .ok (gridRecords θ θ m.minLon m.minLat
          (if m.maxLon = (-180 : ℝ) then 180 else m.maxLon) m.maxLat
          (some m.containsPt))) ∧
    (_generate_cubed_sphere_points θ θ none =
      .ok (gridRecords θ θ (-180) (-90) 180 90 none)) ∧
    (gridRecords θ θ minLon minLat maxLon maxLat none =
      (intRange (npRound ((minLat + 90) / θ)) (npRound ((maxLat + 90) / θ))).flatMap
        fun j => (intRange (npRound ((minLon + 180) / θ))
          (npRound ((maxLon + 180) / θ))).map
          fun i => (_compute_id i j θ θ, gridLon θ i, gridLat θ j)) ∧
    ((gridRecords θ θ minLon minLat maxLon maxLat clip).map Prod.fst).Nodup := by
  have hid : ∀ i j : ℤ, _compute_id i j θ θ = j * ⌊360 / θ⌋ + i % ⌊360 / θ⌋ := by
    intro i j
    unfold _compute_id
    rw [intTrunc_of_nonneg _ (by positivity)]
  have hnodup0 : ((gridRecords θ θ minLon minLat maxLon maxLat none).map
      Prod.fst).Nodup := by
    unfold gridRecords
    simp only [List.map_map]
    apply List.Nodup.map_on ?_ (nodup_grid_pairs _ _ (intRange_nodup _ _)
      (intRange_nodup _ _))
    intro x hx y hy hxy
    rw [List.mem_flatMap] at hx hy
    obtain ⟨jx, hjx, hx2⟩ := hx
    obtain ⟨jy, hjy, hy2⟩ := hy
    rw [List.mem_map] at hx2 hy2
    obtain ⟨ix, hix, rfl⟩ := hx2
    obtain ⟨iy, hiy, rfl⟩ := hy2
    simp only [Function.comp_apply] at hxy
    rw [hid, hid] at hxy
    have hb1 := (mem_intRange _ _ _).mp hix
    have hb2 := (mem_intRange _ _ _).mp hiy
    have := gridId_inj ⌊360 / θ⌋ (npRound ((minLon + 180) / θ))
      (npRound ((maxLon + 180) / θ)) hW hcols ix jx iy jy hb1 hb2 hxy
    rw [this.1, this.2]
  refine ⟨hid, ?_, rfl, ?_, ?_⟩
  · intro m hm
    simp [_generate_cubed_sphere_points, hm]
  · unfold gridRecords
    simp only [List.map_flatMap, List.map_map]
    rfl
  · have hsub : ((gridRecords θ θ minLon minLat maxLon maxLat clip).map
        Prod.fst).Sublist ((gridRecords θ θ minLon minLat maxLon maxLat none).map
        Prod.fst) := by
      apply List.Sublist.map
      unfold gridRecords
      cases clip with
      | none => exact List.Sublist.refl _
      | some c => exact List.filter_sublist _
    exact hnodup0.sublist hsub

/-- C7 witness: step `40°` over the full globe satisfies the column bound
and all ids are distinct. -/
theorem claim_C7_amended_witness :
    (∀ i j : ℤ, _compute_id i j 40 40 =
      j * ⌊(360 : ℝ) / 40⌋ + i % ⌊(360 : ℝ) / 40⌋) ∧
    ((gridRecords 40 40 (-180) (-90) 180 90 none).map Prod.fst).Nodup := by
  have hfloor9 : ⌊(360 : ℝ) / 40⌋ = 9 := by
    rw [show (360 : ℝ) / 40 = ((9 : ℤ) : ℝ) by norm_num, Int.floor_intCast]
  have hW : (1 : ℤ) ≤ ⌊(360 : ℝ) / 40⌋ := by
    rw [hfloor9]
    norm_num
  have hcols : npRound (((180 : ℝ) + 180) / 40) -
      npRound ((((-180) : ℝ) + 180) / 40) ≤ ⌊(360 : ℝ) / 40⌋ := by
    rw [show ((180 : ℝ) + 180) / 40 = ((9 : ℤ) : ℝ) by norm_num, npRound_intCast,
      show ((((-180) : ℝ)) + 180) / 40 = 0 by norm_num, npRound_zero, hfloor9]
    norm_num
  have h := claim_C7_amended 40 (-180) (-90) 180 90 none (by norm_num) hW hcols
  exact ⟨h.1, h.2.2.2.2⟩

/-- C7, uniqueness falsified as stated: at angular step `1800/13`
(distance `10π`·(mean radius)`/13`, no mask) the call returns three
records whose ids are `[0, 1, 0]` — the id `0` repeats because the
rounded column count (3) exceeds `⌊360/θ⌋ = 2`. -/
theorem claim_C7_counterexample :
    generate_cubed_sphere_points (10 * π * EARTH_MEAN_RADIUS / 13) none =
      .ok [((0 : ℤ), (-1440 / 13 : ℝ), (-270 / 13 : ℝ)),
        ((1 : ℤ), (360 / 13 : ℝ), (-270 / 13 : ℝ)),
        ((0 : ℤ), (2160 / 13 : ℝ), (-270 / 13 : ℝ))] ∧
    ¬ ((resultList (generate_cubed_sphere_points
        (10 * π * EARTH_MEAN_RADIUS / 13) none)).map Prod.fst).Nodup := by
  have hR := earth_radius_pos
  have hθ : degrees (10 * π * EARTH_MEAN_RADIUS / 13 / EARTH_MEAN_RADIUS) =
      1800 / 13 := by
    have hπ := Real.pi_pos
    unfold degrees
    field_simp
    ring
  have hmain : generate_cubed_sphere_points (10 * π * EARTH_MEAN_RADIUS / 13)
      none = .ok (gridRecords (1800 / 13) (1800 / 13) (-180) (-90) 180 90 none) := by
    show _generate_cubed_sphere_points
      (degrees (10 * π * EARTH_MEAN_RADIUS / 13 / EARTH_MEAN_RADIUS))
      (degrees (10 * π * EARTH_MEAN_RADIUS / 13 / EARTH_MEAN_RADIUS)) none = _
    rw [hθ]
    rfl
  have hj0 : npRound ((((-90) : ℝ) + 90) / (1800 / 13)) = 0 := by
    rw [show (((-90) : ℝ) + 90) / (1800 / 13) = 0 by norm_num, npRound_zero]
  have hj1 : npRound (((90 : ℝ) + 90) / (1800 / 13)) = 1 := by
    rw [show ((90 : ℝ) + 90) / (1800 / 13) = 13 / 10 by norm_num]
    exact npRound_eq_low (13 / 10 : ℝ) 1 (by norm_num) (by norm_num)
  have hi0 : npRound ((((-180) : ℝ) + 180) / (1800 / 13)) = 0 := by
    rw [show (((-180) : ℝ) + 180) / (1800 / 13) = 0 by norm_num, npRound_zero]
  have hi3 : npRound (((180 : ℝ) + 180) / (1800 / 13)) = 3 := by
    rw [show ((180 : ℝ) + 180) / (1800 / 13) = 13 / 5 by norm_num]
    exact npRound_eq_high (13 / 5 : ℝ) 2 (by norm_num) (by norm_num)
  have hW : intTrunc (360 / (1800 / 13 : ℝ)) = 2 := by
    rw [show (360 : ℝ) / (1800 / 13) = 13 / 5 by norm_num,
      intTrunc_of_nonneg _ (by norm_num), Int.floor_eq_iff]
    norm_num
  have hgrid : gridRecords (1800 / 13) (1800 / 13) (-180) (-90) 180 90 none =
      [((0 : ℤ), (-1440 / 13 : ℝ), (-270 / 13 : ℝ)),
        ((1 : ℤ), (360 / 13 : ℝ), (-270 / 13 : ℝ)),
        ((0 : ℤ), (2160 / 13 : ℝ), (-270 / 13 : ℝ))] := by
    unfold gridRecords
    rw [hj0, hj1, hi0, hi3]
    rw [show intRange 0 1 = [0] from rfl, show intRange 0 3 = [0, 1, 2] from rfl]
    simp only [List.flatMap_cons, List.flatMap_nil, List.map_cons, List.map_nil,
      List.append_nil, List.cons_append, List.nil_append]
    unfold _compute_id gridLon gridLat
    rw [hW]
    norm_num
  refine ⟨by rw [hmain, hgrid], ?_⟩
  rw [hmain, hgrid]
  simp only [resultList, List.map_cons, List.map_nil]
  decide

/-- Records of a masked lattice call whose mask longitude bound does not
exceed `180`: each surviving record keeps the global index as its id and
the unadjusted closed-form coordinates. -/
theorem fib_masked_mem (d : ℝ) (mk : MaskData) (l : List (ℕ × ℝ × ℝ))
    (hmax : fibMaxLon mk ≤ 180)
    (hout : generate_fibonacci_lattice_points d (some mk) = .ok l) :
    ∀ r ∈ l, r.1 < (compute_number_samples d).toNat ∧
      r = (r.1, fibLongitude r.1 (compute_number_samples d).toNat,
        fibLatitude r.1 (compute_number_samples d).toNat) := by
  intro r hr
  cases hval : mk.isValidB with
  | false =>
    rw [generate_fibonacci_lattice_points] at hout
    simp only [hval] at hout
    exact absurd hout (by simp)
  | true =>
    rw [generate_fibonacci_lattice_points] at hout
    simp only [hval, Bool.true_eq_false, if_false, Except.ok.injEq] at hout
    subst hout
    rw [List.mem_filter] at hr
    obtain ⟨hr1, _⟩ := hr
    rw [List.mem_map] at hr1
    obtain ⟨i, hi, rfl⟩ := hr1
    rw [List.mem_filter] at hi
    obtain ⟨hi1, _⟩ := hi
    rw [List.mem_range] at hi1
    have hadj : fibAdjLon mk i (compute_number_samples d).toNat =
        fibLongitude i (compute_number_samples d).toNat := by
      unfold fibAdjLon
      rw [if_neg]
      intro h
      exact absurd h.1 (not_lt.mpr hmax)
    refine ⟨hi1, ?_⟩
    rw [hadj]

/-- Every grid record generated from bounds inside the standard ranges has
longitude in `(-180, 180]` and latitude in `[-90, 90]`. -/
theorem gridRecords_coord_bounds (θ minLon minLat maxLon maxLat : ℝ)
    (clip : Option (ℝ → ℝ → Bool)) (hθ : 0 < θ)
    (h1 : -180 ≤ minLon) (h2 : maxLon ≤ 180) (h3 : -90 ≤ minLat)
    (h4 : maxLat ≤ 90) :
    ∀ r ∈ gridRecords θ θ minLon minLat maxLon maxLat clip,
      (-180 < r.2.1 ∧ r.2.1 ≤ 180) ∧ (-90 ≤ r.2.2 ∧ r.2.2 ≤ 90) := by
  intro r hr
  have hr2 : r ∈ ((intRange (npRound ((minLat + 90) / θ))
      (npRound ((maxLat + 90) / θ))).flatMap
    (fun j => (intRange (npRound ((minLon + 180) / θ))
        (npRound ((maxLon + 180) / θ))).map
      (fun i => (i, j)))).map (fun p =>
        (_compute_id p.1 p.2 θ θ, gridLon θ p.1, gridLat θ p.2)) := by
    unfold gridRecords at hr
    cases clip with
    | none => exact hr
    | some c => exact List.mem_of_mem_filter hr
  rw [List.mem_map] at hr2
  obtain ⟨p, hp, rfl⟩ := hr2
  rw [List.mem_flatMap] at hp
  obtain ⟨j, hj, hp2⟩ := hp
  rw [List.mem_map] at hp2
  obtain ⟨i, hi, rfl⟩ := hp2
  have hib := (mem_intRange _ _ _).mp hi
  have hjb := (mem_intRange _ _ _).mp hj
  have hia : 0 ≤ npRound ((minLon + 180) / θ) :=
    npRound_nonneg _ (div_nonneg (by linarith) hθ.le)
  have hja : 0 ≤ npRound ((minLat + 90) / θ) :=
    npRound_nonneg _ (div_nonneg (by linarith) hθ.le)
  have hiR : (0 : ℝ) ≤ (i : ℝ) := by exact_mod_cast le_trans hia hib.1
  have hjR : (0 : ℝ) ≤ (j : ℝ) := by exact_mod_cast le_trans hja hjb.1
  have hiub : (i : ℝ) + 1 ≤ (npRound ((maxLon + 180) / θ) : ℝ) := by
    exact_mod_cast (by omega : i + 1 ≤ npRound ((maxLon + 180) / θ))
  have hjub : (j : ℝ) + 1 ≤ (npRound ((maxLat + 90) / θ) : ℝ) := by
    exact_mod_cast (by omega : j + 1 ≤ npRound ((maxLat + 90) / θ))
  have hiub2 : (i : ℝ) + 1 / 2 ≤ (maxLon + 180) / θ := by
    have := npRound_le_add_half ((maxLon + 180) / θ)
    linarith
  have hjub2 : (j : ℝ) + 1 / 2 ≤ (maxLat + 90) / θ := by
    have := npRound_le_add_half ((maxLat + 90) / θ)
    linarith
  have hlonub : ((i : ℝ) + 1 / 2) * θ ≤ maxLon + 180 := by
    have := mul_le_mul_of_nonneg_right hiub2 hθ.le
    rwa [div_mul_cancel₀ _ hθ.ne.symm] at this
  have hlatub : ((j : ℝ) + 1 / 2) * θ ≤ maxLat + 90 := by
    have := mul_le_mul_of_nonneg_right hjub2 hθ.le
    rwa [div_mul_cancel₀ _ hθ.ne.symm] at this
  unfold gridLon gridLat
  have h05 : (0.5 : ℝ) = 1 / 2 := by norm_num
  constructor
  · constructor
    · have : 0 < ((i : ℝ) + 0.5) * θ := by positivity
      linarith
    · rw [h05]
      linarith
  · constructor
    · have : 0 < ((j : ℝ) + 0.5) * θ := by positivity
      linarith
    · rw [h05]
      linarith

/-- C4 as amended: for either generator, with no mask or with a mask whose
bounds lie inside `[-180,180]`×`[-90,90]`, every returned record (an
integer id with two real coordinates) has longitude in `(-180, 180]` and
latitude in `[-90, 90]`; with no mask every lattice latitude is strictly
inside `(-90, 90)`.  The restriction to in-range masks is forced: a valid
mask reaching past longitude `180` makes both generators return
longitudes beyond `180` (see the counterexample). -/
theorem claim_C4_amended (d : ℝ) (m : Option MaskData) (hd : 0 < d)
    (hm : maskBoundsInRange m) :
    (∀ l, generate_fibonacci_lattice_points d m = .ok l →
      ∀ r ∈ l, (-180 < r.2.1 ∧ r.2.1 ≤ 180) ∧ (-90 ≤ r.2.2 ∧ r.2.2 ≤ 90)) ∧
    (∀ l, generate_cubed_sphere_points d m = .ok l →
      ∀ r ∈ l, (-180 < r.2.1 ∧ r.2.1 ≤ 180) ∧ (-90 ≤ r.2.2 ∧ r.2.2 ≤ 90)) ∧
    (∀ r ∈ resultList (generate_fibonacci_lattice_points d none),
      -90 < r.2.2 ∧ r.2.2 < 90) := by
  have hθpos : 0 < degrees (d / EARTH_MEAN_RADIUS) := by
    unfold degrees
    have := earth_radius_pos
    have := Real.pi_pos
    positivity
  refine ⟨?_, ?_, ?_⟩
  · intro l hout r hr
    cases m with
    | none =>
      rw [show generate_fibonacci_lattice_points d none =
        .ok ((List.range (compute_number_samples d).toNat).map fun i =>
          (i, fibLongitude i (compute_number_samples d).toNat,
            fibLatitude i (compute_number_samples d).toNat)) from rfl,
        Except.ok.injEq] at hout
      subst hout
      rw [List.mem_map] at hr
      obtain ⟨i, hi, rfl⟩ := hr
      exact ⟨fibLongitude_mem i (compute_number_samples d).toNat,
        fibLatitude_range i (compute_number_samples d).toNat⟩
    | some mk =>
      have hmax : fibMaxLon mk ≤ 180 := by
        obtain ⟨_, h2, _, _⟩ := hm
        unfold fibMaxLon
        split_ifs
        · norm_num
        · exact h2
      have h := fib_masked_mem d mk l hmax hout r hr
      rw [h.2]
      exact ⟨fibLongitude_mem r.1 (compute_number_samples d).toNat,
        fibLatitude_range r.1 (compute_number_samples d).toNat⟩
  · intro l hout r hr
    cases m with
    | none =>
      rw [show generate_cubed_sphere_points d none =
        .ok (gridRecords (degrees (d / EARTH_MEAN_RADIUS))
          (degrees (d / EARTH_MEAN_RADIUS)) (-180) (-90) 180 90 none) from rfl,
        Except.ok.injEq] at hout
      subst hout
      exact gridRecords_coord_bounds _ _ _ _ _ _ hθpos (by norm_num) (by norm_num)
        (by norm_num) (by norm_num) r hr
    | some mk =>
      obtain ⟨hb1, hb2, hb3, hb4⟩ := hm
      rw [show generate_cubed_sphere_points d (some mk) =
        _generate_cubed_sphere_points (degrees (d / EARTH_MEAN_RADIUS))
          (degrees (d / EARTH_MEAN_RADIUS)) (some mk) from rfl,
        _generate_cubed_sphere_points] at hout
      cases hval : mk.isValidB with
      | false =>
        simp only [hval] at hout
        exact absurd hout (by simp)
      | true =>
        simp only [hval, Bool.true_eq_false, if_false, Except.ok.injEq] at hout
        subst hout
        have hmax : (if mk.maxLon = (-180 : ℝ) then (180 : ℝ) else mk.maxLon) ≤ 180 := by
          split_ifs
          · norm_num
          · exact hb2
        exact gridRecords_coord_bounds _ _ _ _ _ _ hθpos hb1 hmax hb3 hb4 r hr
  · intro r hr
    have hr2 : r ∈ (List.range (compute_number_samples d).toNat).map fun i =>
        (i, fibLongitude i (compute_number_samples d).toNat,
          fibLatitude i (compute_number_samples d).toNat) := hr
    rw [List.mem_map] at hr2
    obtain ⟨i, hi, rfl⟩ := hr2
    rw [List.mem_range] at hi
    exact fibLatitude_strict i (compute_number_samples d).toNat hi.le

/-- C4, falsified as stated: with the valid rectangle mask `100..260`
(crossing the antimeridian in `0..360` longitudes), the grid generator
returns the record `(28, 240, 50)` whose longitude `240` is outside
`(-180, 180]`. -/
theorem claim_C4_counterexample :
    ((28 : ℤ), (240 : ℝ), (50 : ℝ)) ∈ resultList (generate_cubed_sphere_points
      (2 * π * EARTH_MEAN_RADIUS / 9) (some mask260)) ∧
    ¬ ((240 : ℝ) ≤ 180) := by
  have hj0 : npRound ((((-90) : ℝ) + 90) / 40) = 0 := by
    rw [show (((-90) : ℝ) + 90) / 40 = 0 by norm_num, npRound_zero]
  have hj4 : npRound (((90 : ℝ) + 90) / 40) = 4 := by
    rw [show ((90 : ℝ) + 90) / 40 = ((4 : ℤ) : ℝ) + 1 / 2 by norm_num]
    exact npRound_eq_half_even _ 4 rfl (by decide)
  have hi7 : npRound (((100 : ℝ) + 180) / 40) = 7 := by
    rw [show ((100 : ℝ) + 180) / 40 = ((7 : ℤ) : ℝ) by norm_num, npRound_intCast]
  have hi11 : npRound (((260 : ℝ) + 180) / 40) = 11 := by
    rw [show ((260 : ℝ) + 180) / 40 = ((11 : ℤ) : ℝ) by norm_num, npRound_intCast]
  have hW9 : intTrunc ((360 : ℝ) / 40) = 9 := by
    rw [show (360 : ℝ) / 40 = ((9 : ℤ) : ℝ) by norm_num,
      intTrunc_of_nonneg _ (by positivity), Int.floor_intCast]
  refine ⟨?_, by norm_num⟩
  have hmain : generate_cubed_sphere_points (2 * π * EARTH_MEAN_RADIUS / 9)
      (some mask260) =
      .ok (gridRecords 40 40 100 (-90) 260 90 (some mask260.containsPt)) := by
    show _generate_cubed_sphere_points
      (degrees (2 * π * EARTH_MEAN_RADIUS / 9 / EARTH_MEAN_RADIUS))
      (degrees (2 * π * EARTH_MEAN_RADIUS / 9 / EARTH_MEAN_RADIUS))
      (some mask260) = _
    rw [theta40]
    show (if mask260.isValidB = false then
        Except.error (PyErr.valueError "Mask is not a valid Polygon or MultiPolygon.")
      else Except.ok (gridRecords 40 40 mask260.minLon mask260.minLat
        (if mask260.maxLon = (-180 : ℝ) then 180 else mask260.maxLon)
        mask260.maxLat (some mask260.containsPt))) = _
    rw [if_neg (by simp [mask260])]
    show Except.ok (gridRecords 40 40 100 (-90)
      (if (260 : ℝ) = (-180 : ℝ) then 180 else (260 : ℝ)) 90
      (some mask260.containsPt)) = _
    rw [if_neg (by norm_num)]
  rw [hmain]
  show ((28 : ℤ), (240 : ℝ), (50 : ℝ)) ∈
    gridRecords 40 40 100 (-90) 260 90 (some mask260.containsPt)
  unfold gridRecords
  rw [hj0, hj4, hi7, hi11]
  rw [List.mem_filter]
  constructor
  · rw [List.mem_map]
    refine ⟨(10, 3), ?_, ?_⟩
    · rw [List.mem_flatMap]
      refine ⟨3, by rw [mem_intRange]; omega, ?_⟩
      rw [List.mem_map]
      exact ⟨10, by rw [mem_intRange]; omega, rfl⟩
    · unfold _compute_id gridLon gridLat
      rw [hW9]
      norm_num
  · show mask260.containsPt 240 50 = true
    show decide ((100 : ℝ) ≤ 240 ∧ (240 : ℝ) ≤ 260 ∧ (-90 : ℝ) ≤ 50 ∧ (50 : ℝ) ≤ 90) = true
    rw [decide_eq_true_eq]
    norm_num

/-- C4 witness: the no-mask lattice at distance `π`·(mean radius) contains
the index-0 record and its latitude is strictly inside `(-90, 90)`. -/
theorem claim_C4_amended_witness :
    0 < π * EARTH_MEAN_RADIUS ∧
    -90 < fibLatitude 0 2 ∧ fibLatitude 0 2 < 90 := by
  have hd : 0 < π * EARTH_MEAN_RADIUS := mul_pos Real.pi_pos earth_radius_pos
  have h := (claim_C4_amended (π * EARTH_MEAN_RADIUS) none hd trivial).2.2
  have hN : (compute_number_samples (π * EARTH_MEAN_RADIUS)).toNat = 2 := by
    rw [nsamples_piR]
    rfl
  have hmem : ((0 : ℕ), fibLongitude 0 2, fibLatitude 0 2) ∈
      resultList (generate_fibonacci_lattice_points (π * EARTH_MEAN_RADIUS) none) := by
    show ((0 : ℕ), fibLongitude 0 2, fibLatitude 0 2) ∈
      (List.range (compute_number_samples (π * EARTH_MEAN_RADIUS)).toNat).map fun i =>
        (i, fibLongitude i (compute_number_samples (π * EARTH_MEAN_RADIUS)).toNat,
          fibLatitude i (compute_number_samples (π * EARTH_MEAN_RADIUS)).toNat)
    rw [hN, List.mem_map]
    exact ⟨0, by norm_num, rfl⟩
  exact ⟨hd, h _ hmem⟩

/-- A candidate index inside the mask bounds whose stored point passes the
exact clip appears in the masked lattice output. -/
theorem fib_masked_mem_intro (d : ℝ) (mk : MaskData) (i : ℕ)
    (hvalid : mk.isValidB = true)
    (hi : i < (compute_number_samples d).toNat)
    (hlat : mk.minLat ≤ fibLatitude i (compute_number_samples d).toNat ∧
      fibLatitude i (compute_number_samples d).toNat ≤ mk.maxLat)
    (hlon : mk.minLon ≤ fibAdjLon mk i (compute_number_samples d).toNat ∧
      fibAdjLon mk i (compute_number_samples d).toNat ≤ fibMaxLon mk)
    (hcont : mk.containsPt (fibAdjLon mk i (compute_number_samples d).toNat)
      (fibLatitude i (compute_number_samples d).toNat) = true) :
    (i, fibAdjLon mk i (compute_number_samples d).toNat,
      fibLatitude i (compute_number_samples d).toNat) ∈
      resultList (generate_fibonacci_lattice_points d (some mk)) := by
  have hout : generate_fibonacci_lattice_points d (some mk) =
      .ok (((((List.range (compute_number_samples d).toNat).filter fun k =>
        decide ((mk.minLat ≤ fibLatitude k (compute_number_samples d).toNat ∧
            fibLatitude k (compute_number_samples d).toNat ≤ mk.maxLat) ∧
          (mk.minLon ≤ fibAdjLon mk k (compute_number_samples d).toNat ∧
            fibAdjLon mk k (compute_number_samples d).toNat ≤ fibMaxLon mk))).map
        fun k => (k, fibAdjLon mk k (compute_number_samples d).toNat,
          fibLatitude k (compute_number_samples d).toNat)).filter
        fun r => mk.containsPt r.2.1 r.2.2)) := by
    rw [generate_fibonacci_lattice_points]
    simp only [hvalid, Bool.true_eq_false, if_false]
  rw [hout]
  show _ ∈ ((((List.range (compute_number_samples d).toNat).filter _).map _).filter _)
  rw [List.mem_filter]
  refine ⟨?_, hcont⟩
  rw [List.mem_map]
  refine ⟨i, ?_, rfl⟩
  rw [List.mem_filter]
  refine ⟨List.mem_range.mpr hi, ?_⟩
  rw [decide_eq_true_eq]
  exact ⟨hlat, hlon⟩

/-- At distance `π`·(mean radius)`/3` the computed global sample count is
`14`. -/
theorem nsamples_piR3 : compute_number_samples (π * EARTH_MEAN_RADIUS / 3) = 14 := by
  have hR := earth_radius_pos
  have hπ := Real.pi_pos
  have h3lo : 12 / 7 < Real.sqrt 3 := (Real.lt_sqrt (by norm_num)).mpr (by norm_num)
  have h3hi : Real.sqrt 3 < 26 / 15 := (Real.sqrt_lt' (by norm_num)).mpr (by norm_num)
  have hden : 0 < 2 - Real.sqrt 3 := by linarith
  show intTrunc (EARTH_SURFACE_AREA / (2 * π * EARTH_MEAN_RADIUS *
    (EARTH_MEAN_RADIUS - EARTH_MEAN_RADIUS *
      Real.cos (π * EARTH_MEAN_RADIUS / 3 / EARTH_MEAN_RADIUS / 2)))) = 14
  have h1 : π * EARTH_MEAN_RADIUS / 3 / EARTH_MEAN_RADIUS / 2 = π / 6 := by
    field_simp
    ring
  rw [h1, Real.cos_pi_div_six]
  have h2 : EARTH_SURFACE_AREA / (2 * π * EARTH_MEAN_RADIUS *
      (EARTH_MEAN_RADIUS - EARTH_MEAN_RADIUS * (Real.sqrt 3 / 2))) =
      4 / (2 - Real.sqrt 3) := by
    unfold EARTH_SURFACE_AREA
    have hdenL : 0 < 2 * π * EARTH_MEAN_RADIUS *
        (EARTH_MEAN_RADIUS - EARTH_MEAN_RADIUS * (Real.sqrt 3 / 2)) := by
      have hfac : 0 < EARTH_MEAN_RADIUS - EARTH_MEAN_RADIUS * (Real.sqrt 3 / 2) := by
        nlinarith
      positivity
    rw [div_eq_div_iff hdenL.ne.symm hden.ne.symm]
    ring
  rw [h2, intTrunc_of_nonneg _ (by positivity), Int.floor_eq_iff]
  constructor
  · rw [le_div_iff hden]
    push_cast
    nlinarith
  · rw [div_lt_iff hden]
    push_cast
    nlinarith

/-- Closed form of the second lattice longitude: `180·√5 − 540`. -/
theorem fibLon1 (n : ℕ) : fibLongitude 1 n = 180 * Real.sqrt 5 - 540 := by
  have h5 : Real.sqrt 5 ^ 2 = 5 := Real.sq_sqrt (by norm_num)
  have h5lo : 2 < Real.sqrt 5 := (Real.lt_sqrt (by norm_num)).mpr (by norm_num)
  have h5hi : Real.sqrt 5 < 3 := (Real.sqrt_lt' (by norm_num)).mpr (by norm_num)
  have hpos : (0 : ℝ) < 1 + Real.sqrt 5 := by positivity
  have ha : 360 * ((1 : ℕ) : ℝ) / ((1 + Real.sqrt 5) / 2) =
      180 * Real.sqrt 5 - 180 := by
    rw [div_eq_iff (by positivity)]
    push_cast
    nlinarith
  show (if npMod (360 * ((1 : ℕ) : ℝ) / ((1 + Real.sqrt 5) / 2)) 360 > 180 then
      npMod (360 * ((1 : ℕ) : ℝ) / ((1 + Real.sqrt 5) / 2)) 360 - 360
    else npMod (360 * ((1 : ℕ) : ℝ) / ((1 + Real.sqrt 5) / 2)) 360) =
    180 * Real.sqrt 5 - 540
  have hmod : npMod (360 * ((1 : ℕ) : ℝ) / ((1 + Real.sqrt 5) / 2)) 360 =
      180 * Real.sqrt 5 - 180 := by
    unfold npMod
    rw [ha]
    have hfl : ⌊(180 * Real.sqrt 5 - 180) / 360⌋ = 0 := by
      rw [Int.floor_eq_iff]
      constructor
      · push_cast
        rw [le_div_iff (by norm_num : (0 : ℝ) < 360)]
        nlinarith
      · push_cast
        rw [div_lt_iff (by norm_num : (0 : ℝ) < 360)]
        nlinarith
    rw [hfl]
    push_cast
    ring
  rw [hmod, if_pos (by nlinarith)]
  ring

/-- C2 as amended: for a valid mask whose east bound does not exceed
longitude `180`, every record of the masked lattice output carries the
global index as id and exactly the closed-form coordinates of the no-mask
record with that id — masking only removes points.  The bound is forced:
a mask reaching beyond longitude `180` shifts surviving west-hemisphere
points by `+360` (see the counterexample). -/
theorem claim_C2_amended (d : ℝ) (mk : MaskData) (l : List (ℕ × ℝ × ℝ))
    (hmax : mk.maxLon ≤ 180)
    (hout : generate_fibonacci_lattice_points d (some mk) = .ok l) :
    generate_fibonacci_lattice_points d none =
      .ok ((List.range (compute_number_samples d).toNat).map fun i =>
        (i, fibLongitude i (compute_number_samples d).toNat,
          fibLatitude i (compute_number_samples d).toNat)) ∧
    ∀ r ∈ l, r.1 < (compute_number_samples d).toNat ∧
      r = (r.1, fibLongitude r.1 (compute_number_samples d).toNat,
        fibLatitude r.1 (compute_number_samples d).toNat) := by
  refine ⟨rfl, ?_⟩
  have hmax2 : fibMaxLon mk ≤ 180 := by
    unfold fibMaxLon
    split_ifs
    · norm_num
    · exact hmax
  exact fib_masked_mem d mk l hmax2 hout

/-- C2 witness: the global rectangle mask at distance `π`·(mean radius)
satisfies the bound and the no-mask output is the full closed-form
record list. -/
theorem claim_C2_amended_witness :
    maskGlobal.maxLon ≤ 180 ∧
    generate_fibonacci_lattice_points (π * EARTH_MEAN_RADIUS) none =
      .ok ((List.range (compute_number_samples (π * EARTH_MEAN_RADIUS)).toNat).map
        fun i => (i, fibLongitude i
            (compute_number_samples (π * EARTH_MEAN_RADIUS)).toNat,
          fibLatitude i (compute_number_samples (π * EARTH_MEAN_RADIUS)).toNat)) := by
  have hmax : maskGlobal.maxLon ≤ 180 := le_refl _
  have hout : generate_fibonacci_lattice_points (π * EARTH_MEAN_RADIUS)
      (some maskGlobal) =
      .ok (resultList (generate_fibonacci_lattice_points (π * EARTH_MEAN_RADIUS)
        (some maskGlobal))) := rfl
  exact ⟨hmax, (claim_C2_amended (π * EARTH_MEAN_RADIUS) maskGlobal _
    hmax hout).1⟩

/-- C2, falsified as stated: with the valid rectangle mask `100..260` at
distance `π`·(mean radius)`/3`, the masked output contains the id-1 record
at longitude `180·√5 − 180` (≈ 222.5°), while the no-mask output's id-1
record is at longitude `180·√5 − 540` (≈ −137.5°): the mask changed a
surviving point's coordinates. -/
theorem claim_C2_counterexample :
    ((1 : ℕ), 180 * Real.sqrt 5 - 180, fibLatitude 1 14) ∈
      resultList (generate_fibonacci_lattice_points
        (π * EARTH_MEAN_RADIUS / 3) (some mask260)) ∧
    generate_fibonacci_lattice_points (π * EARTH_MEAN_RADIUS / 3) none =
      .ok ((List.range 14).map fun i => (i, fibLongitude i 14, fibLatitude i 14)) ∧
    fibLongitude 1 14 = 180 * Real.sqrt 5 - 540 ∧
    (180 * Real.sqrt 5 - 180 : ℝ) ≠ fibLongitude 1 14 := by
  have h5 : Real.sqrt 5 ^ 2 = 5 := Real.sq_sqrt (by norm_num)
  have h5lo : 2 < Real.sqrt 5 := (Real.lt_sqrt (by norm_num)).mpr (by norm_num)
  have h5hi : Real.sqrt 5 < 22 / 9 := (Real.sqrt_lt' (by norm_num)).mpr (by norm_num)
  have hN : (compute_number_samples (π * EARTH_MEAN_RADIUS / 3)).toNat = 14 := by
    rw [nsamples_piR3]
    rfl
  have hlon1 : fibLongitude 1 14 = 180 * Real.sqrt 5 - 540 := fibLon1 14
  have hmaxlon : fibMaxLon mask260 = 260 := by
    unfold fibMaxLon
    show (if (260 : ℝ) = (-180 : ℝ) then (180 : ℝ) else (260 : ℝ)) = 260
    rw [if_neg (by norm_num)]
  have hadj : fibAdjLon mask260 1 14 = 180 * Real.sqrt 5 - 180 := by
    unfold fibAdjLon
    rw [hmaxlon, hlon1, if_pos ⟨by norm_num, by nlinarith⟩]
    ring
  refine ⟨?_, ?_, hlon1, by rw [hlon1]; intro h; linarith⟩
  · have hmem := fib_masked_mem_intro (π * EARTH_MEAN_RADIUS / 3) mask260 1
      rfl (by rw [hN]; norm_num) ?_ ?_ ?_
    · rw [hN, hadj] at hmem
      exact hmem
    · rw [hN]
      show (-90 : ℝ) ≤ fibLatitude 1 14 ∧ fibLatitude 1 14 ≤ (90 : ℝ)
      exact fibLatitude_range 1 14
    · rw [hN, hadj, hmaxlon]
      show (100 : ℝ) ≤ 180 * Real.sqrt 5 - 180 ∧ (180 * Real.sqrt 5 - 180 : ℝ) ≤ 260
      constructor
      · nlinarith
      · nlinarith
    · rw [hN, hadj]
      show decide ((100 : ℝ) ≤ 180 * Real.sqrt 5 - 180 ∧
        (180 * Real.sqrt 5 - 180 : ℝ) ≤ 260 ∧
        (-90 : ℝ) ≤ fibLatitude 1 14 ∧ fibLatitude 1 14 ≤ 90) = true
      rw [decide_eq_true_eq]
      have hl := fibLatitude_range 1 14
      exact ⟨by nlinarith, by nlinarith, hl.1, hl.2⟩
  · show Except.ok ((List.range
      (compute_number_samples (π * EARTH_MEAN_RADIUS / 3)).toNat).map
        fun i => (i, fibLongitude i
            (compute_number_samples (π * EARTH_MEAN_RADIUS / 3)).toNat,
          fibLatitude i (compute_number_samples (π * EARTH_MEAN_RADIUS / 3)).toNat)) = _
    rw [hN]

end Tatc
